import Mathlib

/-!
# Pose filter (`src/filter/Pose_Filter.cpp`)

A shallow embedding of `PoseFilter::processNewData` and of the two receive
callbacks.  A C++ `float` is read over exact arithmetic: it is a number of an
ordered field `F`, or an undefined value, which is what a division by zero
produces and what every operation on an undefined value returns.  The functions
of the C math library (`sqrt`, `cos`, `sin`) are parameters of the model, so
that the definitions run on the rationals and the theorems are stated over the
reals with `Real.sqrt`, `Real.cos` and `Real.sin`.

The rounding, the overflow and the underflow of IEEE-754 binary32 are not part
of the model: a number in a theorem is the exact value of the expression that
the code evaluates.  The theorems are about the control flow, about which
expression of the sample, the prior state and the constants a cycle stores, and
about where an undefined value arises and how it spreads.
-/

namespace RODOS

/-- Functions of the C math library called by the filter and by the vector and
quaternion classes. -/
structure MathLib (F : Type) where
  sqrt : F → F
  cos : F → F
  sin : F → F

/-- A `float` over exact arithmetic: a number, or an undefined value (the
infinities and the NaN of a C++ `float` together).  The operations on numbers
are those of the field `F`: rounding, overflow and underflow of binary32 are not
modelled. -/
inductive Fl (F : Type) where
  | num (v : F)
  | undef
  deriving DecidableEq

namespace Fl

variable {F : Type} [LinearOrderedField F]

/-- Sum of two floats. -/
def add : Fl F → Fl F → Fl F
  | num a, num b => num (a + b)
  | _, _ => undef

/-- Product of two floats. -/
def mul : Fl F → Fl F → Fl F
  | num a, num b => num (a * b)
  | _, _ => undef

/-- Quotient of two floats; undefined when the divisor is zero. -/
def div : Fl F → Fl F → Fl F
  | num a, num b => if b = 0 then undef else num (a / b)
  | _, _ => undef

/-- Square root; undefined on a negative number. -/
def sqrt (M : MathLib F) : Fl F → Fl F
  | num a => if a < 0 then undef else num (M.sqrt a)
  | undef => undef

/-- Cosine. -/
def cos (M : MathLib F) : Fl F → Fl F
  | num a => num (M.cos a)
  | undef => undef

/-- Sine. -/
def sin (M : MathLib F) : Fl F → Fl F
  | num a => num (M.sin a)
  | undef => undef

/-- Comparison `a > b`; false when an operand is undefined. -/
def gt : Fl F → Fl F → Bool
  | num a, num b => decide (b < a)
  | _, _ => false

/-- Comparison `a < b`; false when an operand is undefined. -/
def lt : Fl F → Fl F → Bool
  | num a, num b => decide (a < b)
  | _, _ => false

instance : Add (Fl F) := ⟨add⟩
instance : Mul (Fl F) := ⟨mul⟩
instance : Div (Fl F) := ⟨div⟩
instance (n : Nat) [OfNat F n] : OfNat (Fl F) n := ⟨num (OfNat.ofNat n)⟩

end Fl

/-- Modelled from the spec: the three-component vector class `Vector3D_F` of the
RODOS math library (lateral x, lateral y, depth z), which supports magnitude and
normalization. -/
structure Vector3D_F (F : Type) where
  x : Fl F
  y : Fl F
  z : Fl F
  deriving DecidableEq

namespace Vector3D_F

variable {F : Type} [LinearOrderedField F]

/-- Modelled from the spec: `Vector3D_F::getLen`, the magnitude of the vector. -/
def getLen (M : MathLib F) (v : Vector3D_F F) : Fl F :=
  Fl.sqrt M (v.x * v.x + v.y * v.y + v.z * v.z)

/-- Modelled from the spec: `Vector3D_F::normalize`, every component divided by
the magnitude; undefined when the magnitude is zero. -/
def normalize (M : MathLib F) (v : Vector3D_F F) : Vector3D_F F :=
  let len := v.getLen M
  ⟨v.x / len, v.y / len, v.z / len⟩

/-- Modelled from the spec: `operator*(float, Vector3D_F)`, the vector scaled by
a number. -/
def scale (k : Fl F) (v : Vector3D_F F) : Vector3D_F F :=
  ⟨k * v.x, k * v.y, k * v.z⟩

end Vector3D_F

/-- Modelled from the spec: the class `AngleAxis_F` of the RODOS math library, a
rotation angle `phi` (radians) and a rotation axis `u`. -/
structure AngleAxis_F (F : Type) where
  phi : Fl F
  u : Vector3D_F F

/-- Modelled from the spec: the quaternion class `Quaternion_F` of the RODOS math
library, the quaternion `(w, x, y, z)`.  The library holds it as a scalar part
`q0` and a vector part `q`, and its constructor `Quaternion_F(q0, q)` from a
number and a vector stores the two as given: it is `Quaternion_F.mk` here.  The
construction from an angle and an axis is `ofAngleAxis`, which the library
reaches through `AngleAxis_F`, as line 133 does. -/
structure Quaternion_F (F : Type) where
  q0 : Fl F
  q : Vector3D_F F
  deriving DecidableEq

namespace Quaternion_F

variable {F : Type} [LinearOrderedField F]

/-- Modelled from the spec: `Quaternion_F(const AngleAxis_F&)`, the rotation
quaternion `(cos(phi/2), sin(phi/2) * u)` of an angle and an axis. -/
def ofAngleAxis (M : MathLib F) (a : AngleAxis_F F) : Quaternion_F F :=
  ⟨Fl.cos M (a.phi / 2),
    ⟨a.u.x * Fl.sin M (a.phi / 2), a.u.y * Fl.sin M (a.phi / 2),
      a.u.z * Fl.sin M (a.phi / 2)⟩⟩

/-- Modelled from the spec: `Quaternion_F::operator*(float)`, scalar scaling. -/
def scale (p : Quaternion_F F) (k : Fl F) : Quaternion_F F :=
  ⟨p.q0 * k, ⟨p.q.x * k, p.q.y * k, p.q.z * k⟩⟩

/-- Modelled from the spec: `Quaternion_F::operator/(float)`, every component
divided by a number. -/
def divide (p : Quaternion_F F) (k : Fl F) : Quaternion_F F :=
  ⟨p.q0 / k, ⟨p.q.x / k, p.q.y / k, p.q.z / k⟩⟩

/-- Modelled from the spec: `Quaternion_F::operator+`, component-wise addition. -/
def add (p r : Quaternion_F F) : Quaternion_F F :=
  ⟨p.q0 + r.q0, ⟨p.q.x + r.q.x, p.q.y + r.q.y, p.q.z + r.q.z⟩⟩

/-- Squared norm of a quaternion. -/
def normSq (p : Quaternion_F F) : Fl F :=
  p.q0 * p.q0 + p.q.x * p.q.x + p.q.y * p.q.y + p.q.z * p.q.z

/-- Modelled from the spec: `Quaternion_F::getLen`, the norm of the quaternion. -/
def getLen (M : MathLib F) (p : Quaternion_F F) : Fl F :=
  Fl.sqrt M p.normSq

/-- Modelled from the spec: `Quaternion_F::normalize`, every component divided by
the norm; undefined when the norm is zero. -/
def normalize (M : MathLib F) (p : Quaternion_F F) : Quaternion_F F :=
  p.divide (p.getLen M)

end Quaternion_F

/-- The fields of `OrpeTelemetry` that the filter reads: position in
millimetres, rotation vector, validity flag. -/
structure OrpeTelemetry (F : Type) where
  px : Fl F
  py : Fl F
  pz : Fl F
  ax : Fl F
  ay : Fl F
  az : Fl F
  valid : Bool
  deriving DecidableEq

/-- The covariance constants of the filter, members of `PoseFilter` declared in
`Pose_Filter.hpp` and never written by the code. -/
structure Covariances (F : Type) where
  orpePositionCovPerc_ : Vector3D_F F
  uwbPositionCov_ : Vector3D_F F
  processPositionCov_ : Vector3D_F F
  processAttitudeCov_ : Vector3D_F F

/-- The mutable members of `PoseFilter`: the pose estimate with its two
bootstrap flags, and the inbox written by the receive callbacks. -/
structure PoseFilter (F : Type) where
  attitude_ : Quaternion_F F
  position_ : Vector3D_F F
  firstAttitude_ : Bool
  firstPosition_ : Bool
  orpeNewData_ : Bool
  uwbNewData_ : Bool
  orpeData_ : OrpeTelemetry F
  uwbData_ : Vector3D_F F
  deriving DecidableEq

/-- A value published on one of the two output topics. -/
inductive Publication (F : Type) where
  | attitude (q : Quaternion_F F)
  | position (p : Vector3D_F F)
  deriving DecidableEq

variable {F : Type} [LinearOrderedField F]

/-- `PoseFilter::init` (lines 29-34). -/
def PoseFilter.init (s : PoseFilter F) : PoseFilter F :=
  { s with attitude_ := ⟨1, ⟨0, 0, 0⟩⟩, position_ := ⟨0, 0, 0⟩ }

/-- `PoseFilter::orpeEstRecv` (lines 176-182). -/
def PoseFilter.orpeEstRecv (s : PoseFilter F) (orpeEst : OrpeTelemetry F) : PoseFilter F :=
  { s with orpeData_ := orpeEst, orpeNewData_ := true }

/-- `PoseFilter::uwbEstRecv` (lines 184-190). -/
def PoseFilter.uwbEstRecv (s : PoseFilter F) (uwbEst : Vector3D_F F) : PoseFilter F :=
  { s with uwbData_ := uwbEst, uwbNewData_ := true }

/-- The bounds check on the ranging sample (lines 65-66). -/
def uwbBoundsFilter (M : MathLib F) (uwbPosition : Vector3D_F F) (uwbNew : Bool) : Bool :=
  if (uwbPosition.getLen M).gt 500 || (uwbPosition.getLen M).lt 2 then false else uwbNew

/-- Attitude bootstrap (lines 68-77). -/
def bootstrapAttitude (M : MathLib F) (orpeNew : Bool) (orpeTele : OrpeTelemetry F)
    (s : PoseFilter F) : PoseFilter F :=
  if orpeNew && s.firstAttitude_ then
    let orpeRot : Vector3D_F F := ⟨orpeTele.ax, orpeTele.ay, orpeTele.az⟩
    let rotAxis := orpeRot.normalize M
    let rotAngle := orpeRot.getLen M
    { s with attitude_ := Quaternion_F.mk rotAngle rotAxis, firstAttitude_ := false }
  else s

/-- Position bootstrap from the optical sample (lines 79-86). -/
def bootstrapPositionOrpe (orpeNew : Bool) (orpeTele : OrpeTelemetry F)
    (s : PoseFilter F) : PoseFilter F :=
  if orpeNew && s.firstPosition_ then
    let orpePos : Vector3D_F F := ⟨orpeTele.px / 1000, orpeTele.py / 1000, orpeTele.pz / 1000⟩
    { s with position_ := orpePos, firstPosition_ := false }
  else s

/-- Position bootstrap from the ranging sample (lines 88-94). -/
def bootstrapPositionUwb (uwbNew : Bool) (uwbPosition : Vector3D_F F)
    (s : PoseFilter F) : PoseFilter F :=
  if uwbNew && s.firstPosition_ then
    { s with position_ := uwbPosition, firstPosition_ := false }
  else s

/-- The weighted average written out for every axis in lines 125-127 and
157-159: `(a * 1/ca + b * 1/cb) / (1/ca + 1/cb)`. -/
def weightedAverage (a ca b cb : Fl F) : Fl F :=
  (a * 1 / ca + b * 1 / cb) / (1 / ca + 1 / cb)

/-- The optical position covariance triple `orpePositionCov_` (lines 102,
109-110). -/
def orpePositionCov (M : MathLib F) (c : Covariances F) (orpeTele : OrpeTelemetry F) :
    Vector3D_F F :=
  let orpePos : Vector3D_F F := ⟨orpeTele.px / 1000, orpeTele.py / 1000, orpeTele.pz / 1000⟩
  let dist := orpePos.getLen M
  Vector3D_F.scale dist c.orpePositionCovPerc_

/-- The local `orpeDepthCov` (line 112). -/
def orpeDepthCov (M : MathLib F) (c : Covariances F) (orpeTele : OrpeTelemetry F) : Fl F :=
  (orpePositionCov M c orpeTele).z

/-- The local `orpeLateralCov` (line 113). -/
def orpeLateralCov (M : MathLib F) (c : Covariances F) (orpeTele : OrpeTelemetry F) : Fl F :=
  Fl.sqrt M ((orpePositionCov M c orpeTele).x * (orpePositionCov M c orpeTele).y)

/-- The local `orpeAttCov` (lines 111, 115). -/
def orpeAttCov (M : MathLib F) : Fl F :=
  let orpeAttitudeCov_ : Vector3D_F F := ⟨1, 1, 1⟩
  Fl.sqrt M (orpeAttitudeCov_.x * orpeAttitudeCov_.y * orpeAttitudeCov_.z)

/-- The local `processDepthCov` (lines 117 and 152). -/
def processDepthCov (c : Covariances F) : Fl F :=
  c.processPositionCov_.z

/-- The local `processLateralCov` (lines 118 and 153). -/
def processLateralCov (M : MathLib F) (c : Covariances F) : Fl F :=
  Fl.sqrt M (c.processPositionCov_.x * c.processPositionCov_.y)

/-- The local `attitudeNoiseCov_` (line 120). -/
def attitudeNoiseCov (M : MathLib F) (c : Covariances F) : Fl F :=
  Fl.sqrt M (c.processAttitudeCov_.x * c.processAttitudeCov_.y * c.processAttitudeCov_.z)

/-- The position written by the optical fusion step (lines 124-128). -/
def orpePositionBlend (M : MathLib F) (c : Covariances F) (orpeTele : OrpeTelemetry F)
    (position_ : Vector3D_F F) : Vector3D_F F :=
  let orpePos : Vector3D_F F := ⟨orpeTele.px / 1000, orpeTele.py / 1000, orpeTele.pz / 1000⟩
  ⟨weightedAverage orpePos.x (orpeLateralCov M c orpeTele) position_.x (processLateralCov M c),
    weightedAverage orpePos.y (orpeLateralCov M c orpeTele) position_.y (processLateralCov M c),
    weightedAverage orpePos.z (orpeDepthCov M c orpeTele) position_.z (processDepthCov c)⟩

/-- The local `orpeRotQuat` (lines 101, 131-133). -/
def orpeRotQuat (M : MathLib F) (orpeTele : OrpeTelemetry F) : Quaternion_F F :=
  let orpeRot : Vector3D_F F := ⟨orpeTele.ax, orpeTele.ay, orpeTele.az⟩
  let rotAxis := orpeRot.normalize M
  let rotAngle := orpeRot.getLen M
  Quaternion_F.ofAngleAxis M ⟨rotAngle, rotAxis⟩

/-- The averaged quaternion `newAttitude` before it is normalized (line 136). -/
def orpeAttitudeBlend (M : MathLib F) (c : Covariances F) (orpeTele : OrpeTelemetry F)
    (attitude_ : Quaternion_F F) : Quaternion_F F :=
  ((((orpeRotQuat M orpeTele).scale 1).divide (orpeAttCov M)).add
      ((attitude_.scale 1).divide (attitudeNoiseCov M c))).divide
    (1 / orpeAttCov M + 1 / attitudeNoiseCov M c)

/-- Optical fusion (lines 97-141). -/
def orpeFusion (M : MathLib F) (c : Covariances F) (orpeNew : Bool)
    (orpeTele : OrpeTelemetry F) (s : PoseFilter F) : PoseFilter F :=
  if orpeNew then
    { s with
      position_ := orpePositionBlend M c orpeTele s.position_,
      attitude_ := (orpeAttitudeBlend M c orpeTele s.attitude_).normalize M }
  else s

/-- The local `uwbDepthCov` (line 149). -/
def uwbDepthCov (c : Covariances F) : Fl F :=
  c.uwbPositionCov_.z

/-- The local `uwbLateralCov` (line 150). -/
def uwbLateralCov (M : MathLib F) (c : Covariances F) : Fl F :=
  Fl.sqrt M (c.uwbPositionCov_.x * c.uwbPositionCov_.y)

/-- The position written by the ranging fusion step (lines 156-160). -/
def uwbPositionBlend (M : MathLib F) (c : Covariances F) (uwbPosition : Vector3D_F F)
    (position_ : Vector3D_F F) : Vector3D_F F :=
  ⟨weightedAverage uwbPosition.x (uwbLateralCov M c) position_.x (processLateralCov M c),
    weightedAverage uwbPosition.y (uwbLateralCov M c) position_.y (processLateralCov M c),
    weightedAverage uwbPosition.z (uwbDepthCov c) position_.z (processDepthCov c)⟩

/-- Ranging fusion (lines 145-162). -/
def uwbFusion (M : MathLib F) (c : Covariances F) (uwbNew : Bool)
    (uwbPosition : Vector3D_F F) (s : PoseFilter F) : PoseFilter F :=
  if uwbNew then
    { s with position_ := uwbPositionBlend M c uwbPosition s.position_ }
  else s

/-- The publications of a cycle, in order (lines 165-171). -/
def publish (orpeNew uwbNew : Bool) (s : PoseFilter F) : List (Publication F) :=
  if orpeNew then [Publication.attitude s.attitude_, Publication.position s.position_]
  else if uwbNew then [Publication.position s.position_]
  else []

/-- `PoseFilter::processNewData` (lines 48-173): the state after the cycle and
the values published by it. -/
def processNewData (M : MathLib F) (c : Covariances F) (s : PoseFilter F) :
    PoseFilter F × List (Publication F) :=
  let orpeNew := s.orpeNewData_
  let uwbNew := s.uwbNewData_
  let orpeTele := s.orpeData_
  let uwbPosition := s.uwbData_
  let s0 : PoseFilter F := { s with orpeNewData_ := false, uwbNewData_ := false }
  let orpeNew := orpeNew && orpeTele.valid
  let uwbNew := uwbBoundsFilter M uwbPosition uwbNew
  let s1 := bootstrapAttitude M orpeNew orpeTele s0
  let s2 := bootstrapPositionOrpe orpeNew orpeTele s1
  let s3 := bootstrapPositionUwb uwbNew uwbPosition s2
  let s4 := orpeFusion M c orpeNew orpeTele s3
  let s5 := uwbFusion M c uwbNew uwbPosition s4
  (s5, publish orpeNew uwbNew s5)

/-- A vector whose three components are numbers. -/
def vec (a b d : F) : Vector3D_F F :=
  ⟨Fl.num a, Fl.num b, Fl.num d⟩

/-- A quaternion whose four components are numbers. -/
def quat (w a b d : F) : Quaternion_F F :=
  ⟨Fl.num w, vec a b d⟩

/-- An optical sample with the given position (millimetres), rotation vector and
validity flag. -/
def opticalSample (px py pz ax ay az : F) (valid : Bool) : OrpeTelemetry F :=
  ⟨Fl.num px, Fl.num py, Fl.num pz, Fl.num ax, Fl.num ay, Fl.num az, valid⟩

/-- The state built by the constructor and `init`: identity attitude, position
at the origin, no new data in the inbox, and both estimates not yet initialised
(`firstAttitude_` and `firstPosition_`, declared in `Pose_Filter.hpp`, are true:
the spec creates the pose state with neither estimate initialised). -/
def PoseFilter.initial (orpe0 : OrpeTelemetry F) (uwb0 : Vector3D_F F) : PoseFilter F :=
  PoseFilter.init ⟨quat 0 0 0 0, vec 0 0 0, true, true, false, false, orpe0, uwb0⟩

/-- The configuration invariant: every covariance constant is a strictly
positive number. -/
def Vector3D_F.IsPositive (v : Vector3D_F F) : Prop :=
  ∃ a b d : F, v = vec a b d ∧ 0 < a ∧ 0 < b ∧ 0 < d

/-- The configuration invariant on the four covariance triples. -/
def Covariances.IsPositive (c : Covariances F) : Prop :=
  c.orpePositionCovPerc_.IsPositive ∧ c.uwbPositionCov_.IsPositive ∧
    c.processPositionCov_.IsPositive ∧ c.processAttitudeCov_.IsPositive

/-- The covariance constants all equal to `k`. -/
def Covariances.const (k : F) : Covariances F :=
  ⟨vec k k k, vec k k k, vec k k k, vec k k k⟩

/-- The inverse-covariance weighted average in the words of the spec (4.2,
step 5): `(new·(1/cov_new) + prior·(1/cov_prior)) / (1/cov_new + 1/cov_prior)`. -/
def inverseCovarianceBlend {α : Type} [Add α] [Mul α] [Div α] [OfNat α 1]
    (new covNew prior covPrior : α) : α :=
  (new * (1 / covNew) + prior * (1 / covPrior)) / (1 / covNew + 1 / covPrior)

/-- A state with initialised estimates (identity attitude, position `p`) whose
inbox holds a new optical sample `o` and a new ranging sample `u`. -/
def PoseFilter.running (p : Vector3D_F F) (o : OrpeTelemetry F) (u : Vector3D_F F) :
    PoseFilter F :=
  ⟨quat 1 0 0 0, p, false, false, true, true, o, u⟩

/-- The state reached from the initial state by submitting the optical sample
`o1`, running one cycle with the constants `c`, and submitting the optical
sample `o2`. -/
def PoseFilter.afterTwoSamples (M : MathLib F) (c : Covariances F) (o1 o2 : OrpeTelemetry F) :
    PoseFilter F :=
  ((processNewData M c ((PoseFilter.initial o1 (vec 0 0 0)).orpeEstRecv o1)).1).orpeEstRecv o2

/-- One step of the sequential model of the filter: a producer submits an
optical sample, a producer submits a ranging sample, or the filter thread runs
one cycle of `processNewData`. -/
inductive Step (M : MathLib F) (c : Covariances F) : PoseFilter F → PoseFilter F → Prop where
  | submitOrpe (s : PoseFilter F) (o : OrpeTelemetry F) : Step M c s (s.orpeEstRecv o)
  | submitUwb (s : PoseFilter F) (u : Vector3D_F F) : Step M c s (s.uwbEstRecv u)
  | cycle (s : PoseFilter F) : Step M c s (processNewData M c s).1

/-- The states reachable from an initial state by finitely many steps. -/
def Reachable (M : MathLib F) (c : Covariances F) (s : PoseFilter F) : Prop :=
  ∃ (o0 : OrpeTelemetry F) (u0 : Vector3D_F F),
    Relation.ReflTransGen (Step M c) (PoseFilter.initial o0 u0) s

/-! ## Arithmetic of floats -/

set_option linter.unusedSectionVars false

namespace Fl

@[simp] theorem num_add_num (a b : F) : (num a + num b : Fl F) = num (a + b) := rfl

@[simp] theorem undef_add (a : Fl F) : undef + a = undef := by cases a <;> rfl

@[simp] theorem add_undef (a : Fl F) : a + undef = undef := by cases a <;> rfl

@[simp] theorem num_mul_num (a b : F) : (num a * num b : Fl F) = num (a * b) := rfl

@[simp] theorem undef_mul (a : Fl F) : undef * a = undef := by cases a <;> rfl

@[simp] theorem mul_undef (a : Fl F) : a * undef = undef := by cases a <;> rfl

@[simp] theorem num_div_num (a b : F) :
    (num a / num b : Fl F) = if b = 0 then undef else num (a / b) := rfl

@[simp] theorem undef_div (a : Fl F) : undef / a = undef := by cases a <;> rfl

@[simp] theorem div_undef (a : Fl F) : a / undef = undef := by cases a <;> rfl

theorem ofNat_eq_num (n : Nat) [OfNat F n] :
    (OfNat.ofNat n : Fl F) = num (OfNat.ofNat n) := rfl

@[simp] theorem sqrt_num (M : MathLib F) (a : F) :
    sqrt M (num a) = if a < 0 then undef else num (M.sqrt a) := rfl

@[simp] theorem sqrt_undef (M : MathLib F) : sqrt M (undef : Fl F) = undef := rfl

@[simp] theorem cos_num (M : MathLib F) (a : F) : cos M (num a) = num (M.cos a) := rfl

@[simp] theorem cos_undef (M : MathLib F) : cos M (undef : Fl F) = undef := rfl

@[simp] theorem sin_num (M : MathLib F) (a : F) : sin M (num a) = num (M.sin a) := rfl

@[simp] theorem sin_undef (M : MathLib F) : sin M (undef : Fl F) = undef := rfl

@[simp] theorem gt_num_num (a b : F) : gt (num a) (num b) = decide (b < a) := rfl

@[simp] theorem gt_undef_left (a : Fl F) : gt undef a = false := rfl

@[simp] theorem gt_undef_right (a : Fl F) : gt a undef = false := by cases a <;> rfl

@[simp] theorem lt_num_num (a b : F) : lt (num a) (num b) = decide (a < b) := rfl

@[simp] theorem lt_undef_left (a : Fl F) : lt undef a = false := rfl

@[simp] theorem lt_undef_right (a : Fl F) : lt a undef = false := by cases a <;> rfl

end Fl

/-- The magnitude of a vector of real numbers is the real square root of the sum
of the squares. -/
theorem getLen_vec (x y z : ℝ) :
    Vector3D_F.getLen ⟨Real.sqrt, Real.cos, Real.sin⟩ (vec x y z) =
      Fl.num (Real.sqrt (x * x + y * y + z * z)) := by
  have h : ¬ (x * x + y * y + z * z < 0) :=
    not_lt.mpr (add_nonneg (add_nonneg (mul_self_nonneg x) (mul_self_nonneg y))
      (mul_self_nonneg z))
  simp [Vector3D_F.getLen, vec, h]

/-- The bounds check accepts a new ranging sample of real components exactly
when its magnitude lies in the closed interval from 2 to 500. -/
theorem uwbBoundsFilter_vec (x y z : ℝ) (b : Bool) :
    uwbBoundsFilter ⟨Real.sqrt, Real.cos, Real.sin⟩ (vec x y z) b =
      (b && decide (2 ≤ Real.sqrt (x * x + y * y + z * z) ∧
        Real.sqrt (x * x + y * y + z * z) ≤ 500)) := by
  unfold uwbBoundsFilter
  rw [getLen_vec]
  by_cases h1 : 500 < Real.sqrt (x * x + y * y + z * z) <;>
    by_cases h2 : Real.sqrt (x * x + y * y + z * z) < 2 <;>
    cases b <;> simp [Fl.ofNat_eq_num, h1, h2]
  all_goals exact ⟨not_lt.mp h2, not_lt.mp h1⟩

/-- The weighted average of two numbers with non-zero covariances whose inverses
do not cancel is the number given by the same formula. -/
theorem weightedAverage_num (a ca b cb : F) (hca : ca ≠ 0) (hcb : cb ≠ 0)
    (hsum : 1 / ca + 1 / cb ≠ 0) :
    weightedAverage (Fl.num a) (Fl.num ca) (Fl.num b) (Fl.num cb) =
      Fl.num ((a / ca + b / cb) / (1 / ca + 1 / cb)) := by
  have hsum2 : ca⁻¹ + cb⁻¹ ≠ 0 := by simpa [one_div] using hsum
  simp [weightedAverage, Fl.ofNat_eq_num, hca, hcb, hsum2]

/-- The weighted average of a number with itself, for strictly positive
covariances, is that number. -/
theorem weightedAverage_self (a ca cb : F) (hca : 0 < ca) (hcb : 0 < cb) :
    weightedAverage (Fl.num a) (Fl.num ca) (Fl.num a) (Fl.num cb) = Fl.num a := by
  have h1 : 0 < 1 / ca := by positivity
  have h2 : 0 < 1 / cb := by positivity
  have h3 : 1 / ca + 1 / cb ≠ 0 := by linarith
  rw [weightedAverage_num a ca a cb hca.ne.symm hcb.ne.symm h3]
  congr 1
  field_simp
  ring

/-- The weighted average as the code writes it is the inverse-covariance blend
of the spec, on every four floats, defined or not. -/
theorem weightedAverage_eq_blend (a ca b cb : Fl F) :
    weightedAverage a ca b cb = inverseCovarianceBlend a ca b cb := by
  unfold weightedAverage inverseCovarianceBlend
  cases a <;> cases ca <;> cases b <;> cases cb <;>
    simp only [Fl.ofNat_eq_num, Fl.num_mul_num, Fl.num_div_num, Fl.undef_add, Fl.add_undef,
      Fl.undef_mul, Fl.mul_undef, Fl.undef_div, Fl.div_undef]
  rename_i a ca b cb
  by_cases h1 : ca = 0 <;> by_cases h2 : cb = 0 <;>
    simp only [h1, h2, if_true, if_false, Fl.num_mul_num, Fl.num_add_num, Fl.num_div_num,
      Fl.undef_add, Fl.add_undef, Fl.undef_mul, Fl.mul_undef, Fl.undef_div, Fl.div_undef]
  rw [mul_one, mul_one, mul_one_div, mul_one_div]

/-- The inverse-covariance blend of two numbers with strictly positive
covariances is the number given by the same formula. -/
theorem blend_num (a ca b cb : F) (hca : 0 < ca) (hcb : 0 < cb) :
    inverseCovarianceBlend (Fl.num a) (Fl.num ca) (Fl.num b) (Fl.num cb) =
      Fl.num (inverseCovarianceBlend a ca b cb) := by
  have h1 : 0 < 1 / ca := by positivity
  have h2 : 0 < 1 / cb := by positivity
  have h3 : 1 / ca + 1 / cb ≠ 0 := by linarith
  simp only [inverseCovarianceBlend, Fl.ofNat_eq_num, Fl.num_div_num, Fl.num_mul_num,
    Fl.num_add_num, if_neg hca.ne.symm, if_neg hcb.ne.symm, if_neg h3]

/-- The weighted average is undefined when the covariance of the new value is
zero. -/
theorem weightedAverage_zero_cov (a b cb : Fl F) :
    weightedAverage a (Fl.num 0) b cb = Fl.undef := by
  cases a <;> simp [weightedAverage, Fl.ofNat_eq_num]

/-- The weighted average is undefined when the prior value is undefined. -/
theorem weightedAverage_undef_prior (a ca cb : Fl F) :
    weightedAverage a ca Fl.undef cb = Fl.undef := by
  simp [weightedAverage]

/-! ## The cycle, by filtered flags -/

/-- The optical position in metres (lines 81 and 102). -/
theorem orpePos_opticalSample (px py pz ax ay az : F) (v : Bool) :
    (⟨(opticalSample px py pz ax ay az v).px / 1000,
      (opticalSample px py pz ax ay az v).py / 1000,
      (opticalSample px py pz ax ay az v).pz / 1000⟩ : Vector3D_F F) =
      vec (px / 1000) (py / 1000) (pz / 1000) := by
  simp [opticalSample, vec, Fl.ofNat_eq_num]

/-- The position after a cycle in which only the ranging sample passes the
filters. -/
theorem processNewData_uwb_only (M : MathLib F) (c : Covariances F) (s : PoseFilter F)
    (ho : (s.orpeNewData_ && s.orpeData_.valid) = false)
    (hu : uwbBoundsFilter M s.uwbData_ s.uwbNewData_ = true) :
    (processNewData M c s).1.position_ =
        uwbPositionBlend M c s.uwbData_ (if s.firstPosition_ then s.uwbData_ else s.position_) ∧
      (processNewData M c s).1.attitude_ = s.attitude_ ∧
      (processNewData M c s).1.firstAttitude_ = s.firstAttitude_ ∧
      (processNewData M c s).1.firstPosition_ = false ∧
      (processNewData M c s).2 = [Publication.position (processNewData M c s).1.position_] := by
  cases hfp : s.firstPosition_ <;>
    simp [processNewData, ho, hu, hfp, bootstrapAttitude, bootstrapPositionOrpe,
      bootstrapPositionUwb, orpeFusion, uwbFusion, publish]

/-- The position after a cycle in which both samples pass the filters. -/
theorem processNewData_both_position (M : MathLib F) (c : Covariances F) (s : PoseFilter F)
    (ho : (s.orpeNewData_ && s.orpeData_.valid) = true)
    (hu : uwbBoundsFilter M s.uwbData_ s.uwbNewData_ = true) :
    (processNewData M c s).1.position_ =
      uwbPositionBlend M c s.uwbData_ (orpePositionBlend M c s.orpeData_
        (if s.firstPosition_ then
          ⟨s.orpeData_.px / 1000, s.orpeData_.py / 1000, s.orpeData_.pz / 1000⟩
        else s.position_)) := by
  cases hfa : s.firstAttitude_ <;> cases hfp : s.firstPosition_ <;>
    simp [processNewData, ho, hu, hfa, hfp, bootstrapAttitude, bootstrapPositionOrpe,
      bootstrapPositionUwb, orpeFusion, uwbFusion]

/-- The position after a cycle in which only the optical sample passes the
filters. -/
theorem processNewData_orpe_only_position (M : MathLib F) (c : Covariances F) (s : PoseFilter F)
    (ho : (s.orpeNewData_ && s.orpeData_.valid) = true)
    (hu : uwbBoundsFilter M s.uwbData_ s.uwbNewData_ = false) :
    (processNewData M c s).1.position_ =
      orpePositionBlend M c s.orpeData_
        (if s.firstPosition_ then
          ⟨s.orpeData_.px / 1000, s.orpeData_.py / 1000, s.orpeData_.pz / 1000⟩
        else s.position_) := by
  cases hfa : s.firstAttitude_ <;> cases hfp : s.firstPosition_ <;>
    simp [processNewData, ho, hu, hfa, hfp, bootstrapAttitude, bootstrapPositionOrpe,
      bootstrapPositionUwb, orpeFusion, uwbFusion]

/-- The attitude after a cycle in which the optical sample passes the filter:
the normalized blend of the optical rotation quaternion with the attitude that
the bootstrap step leaves. -/
theorem processNewData_orpe_attitude (M : MathLib F) (c : Covariances F) (s : PoseFilter F)
    (ho : (s.orpeNewData_ && s.orpeData_.valid) = true) :
    (processNewData M c s).1.attitude_ =
        (orpeAttitudeBlend M c s.orpeData_
          (if s.firstAttitude_ then
            Quaternion_F.mk
              (Vector3D_F.getLen M ⟨s.orpeData_.ax, s.orpeData_.ay, s.orpeData_.az⟩)
              (Vector3D_F.normalize M ⟨s.orpeData_.ax, s.orpeData_.ay, s.orpeData_.az⟩)
          else s.attitude_)).normalize M ∧
      (processNewData M c s).1.firstAttitude_ = false ∧
      (processNewData M c s).1.firstPosition_ = false ∧
      (processNewData M c s).2 = [Publication.attitude (processNewData M c s).1.attitude_,
        Publication.position (processNewData M c s).1.position_] := by
  cases hfa : s.firstAttitude_ <;> cases hfp : s.firstPosition_ <;>
    cases hu : uwbBoundsFilter M s.uwbData_ s.uwbNewData_ <;>
    simp [processNewData, ho, hu, hfa, hfp, bootstrapAttitude, bootstrapPositionOrpe,
      bootstrapPositionUwb, orpeFusion, uwbFusion, publish]

/-- The cycle with both filtered flags false changes nothing of the pose and
publishes nothing. -/
theorem cycle_without_valid_sample (M : MathLib F) (c : Covariances F) (s : PoseFilter F)
    (ho : s.orpeNewData_ = false ∨ s.orpeData_.valid = false)
    (hu : s.uwbNewData_ = false ∨ (s.uwbData_.getLen M).gt 500 = true ∨
      (s.uwbData_.getLen M).lt 2 = true) :
    (processNewData M c s).1.attitude_ = s.attitude_ ∧
      (processNewData M c s).1.position_ = s.position_ ∧
      (processNewData M c s).1.firstAttitude_ = s.firstAttitude_ ∧
      (processNewData M c s).1.firstPosition_ = s.firstPosition_ ∧
      (processNewData M c s).2 = [] := by
  have h1 : (s.orpeNewData_ && s.orpeData_.valid) = false := by
    rcases ho with h | h <;> simp [h]
  have h2 : uwbBoundsFilter M s.uwbData_ s.uwbNewData_ = false := by
    unfold uwbBoundsFilter
    rcases hu with h | h | h <;> simp [h]
  simp [processNewData, h1, h2, bootstrapAttitude, bootstrapPositionOrpe, bootstrapPositionUwb,
    orpeFusion, uwbFusion, publish]

/-! ## Covariances and blends over the reals -/

/-- The lateral covariance of a strictly positive triple is the strictly
positive square root of the product of its two lateral components. -/
theorem sqrt_lateral_pos (v : Vector3D_F ℝ) (hv : v.IsPositive) :
    ∃ k : ℝ, 0 < k ∧ Fl.sqrt ⟨Real.sqrt, Real.cos, Real.sin⟩ (v.x * v.y) = Fl.num k ∧
      ∃ d : ℝ, 0 < d ∧ v.z = Fl.num d := by
  obtain ⟨a, b, d, rfl, ha, hb, hd⟩ := hv
  have hab : 0 < a * b := mul_pos ha hb
  exact ⟨Real.sqrt (a * b), Real.sqrt_pos.mpr hab, by simp [vec, not_lt.mpr hab.le], d, hd, rfl⟩

/-- Blending a ranging position with itself, for strictly positive ranging and
process covariances, returns it. -/
theorem uwbPositionBlend_self (c : Covariances ℝ) (x y z : ℝ)
    (hu : c.uwbPositionCov_.IsPositive) (hp : c.processPositionCov_.IsPositive) :
    uwbPositionBlend ⟨Real.sqrt, Real.cos, Real.sin⟩ c (vec x y z) (vec x y z) = vec x y z := by
  obtain ⟨k, hk, hk2, d, hd, hd2⟩ := sqrt_lateral_pos _ hu
  obtain ⟨m, hm, hm2, e, he, he2⟩ := sqrt_lateral_pos _ hp
  simp only [uwbPositionBlend, uwbLateralCov, uwbDepthCov, processLateralCov, processDepthCov,
    hk2, hd2, hm2, he2, vec, weightedAverage_self _ _ _ hk hm, weightedAverage_self _ _ _ hd he]

/-- The real square root of the square of a non-negative number placed on the
first axis. -/
theorem sqrt_axis (a : ℝ) (ha : 0 ≤ a) : Real.sqrt (a * a + 0 * 0 + 0 * 0) = a := by
  rw [show a * a + 0 * 0 + 0 * 0 = a ^ 2 by ring]
  exact Real.sqrt_sq ha

/-- The optical covariances of a sample of real components, for a percentage
triple of non-negative lateral components: with `d` the distance in metres, the
lateral covariance is the square root of `d * a1 * (d * a2)` and the depth
covariance is `d * a3`. -/
theorem orpeCov_opticalSample (c : Covariances ℝ) (px py pz ax ay az a1 a2 a3 : ℝ) (v : Bool)
    (hc : c.orpePositionCovPerc_ = vec a1 a2 a3) (h1 : 0 ≤ a1) (h2 : 0 ≤ a2) :
    orpeLateralCov ⟨Real.sqrt, Real.cos, Real.sin⟩ c (opticalSample px py pz ax ay az v) =
        Fl.num (Real.sqrt
          (Real.sqrt (px / 1000 * (px / 1000) + py / 1000 * (py / 1000) + pz / 1000 * (pz / 1000))
              * a1 *
            (Real.sqrt (px / 1000 * (px / 1000) + py / 1000 * (py / 1000) +
              pz / 1000 * (pz / 1000)) * a2))) ∧
      orpeDepthCov ⟨Real.sqrt, Real.cos, Real.sin⟩ c (opticalSample px py pz ax ay az v) =
        Fl.num (Real.sqrt
          (px / 1000 * (px / 1000) + py / 1000 * (py / 1000) + pz / 1000 * (pz / 1000)) * a3) := by
  have hcov : orpePositionCov ⟨Real.sqrt, Real.cos, Real.sin⟩ c
      (opticalSample px py pz ax ay az v) =
      vec (Real.sqrt (px / 1000 * (px / 1000) + py / 1000 * (py / 1000) +
          pz / 1000 * (pz / 1000)) * a1)
        (Real.sqrt (px / 1000 * (px / 1000) + py / 1000 * (py / 1000) +
          pz / 1000 * (pz / 1000)) * a2)
        (Real.sqrt (px / 1000 * (px / 1000) + py / 1000 * (py / 1000) +
          pz / 1000 * (pz / 1000)) * a3) := by
    unfold orpePositionCov
    rw [orpePos_opticalSample]
    simp only [getLen_vec, hc, Vector3D_F.scale]
    simp only [vec, Fl.num_mul_num]
  have hnn : ¬ (Real.sqrt (px / 1000 * (px / 1000) + py / 1000 * (py / 1000) +
      pz / 1000 * (pz / 1000)) * a1 *
      (Real.sqrt (px / 1000 * (px / 1000) + py / 1000 * (py / 1000) +
        pz / 1000 * (pz / 1000)) * a2) < 0) :=
    not_lt.mpr (mul_nonneg (mul_nonneg (Real.sqrt_nonneg _) h1)
      (mul_nonneg (Real.sqrt_nonneg _) h2))
  constructor
  · unfold orpeLateralCov
    rw [hcov]
    simp only [vec, Fl.num_mul_num, Fl.sqrt_num, if_neg hnn]
  · unfold orpeDepthCov
    rw [hcov]
    rfl

/-- The distance of a non-zero optical position is strictly positive. -/
theorem orpe_dist_pos (px py pz : ℝ) (h : px ≠ 0 ∨ py ≠ 0 ∨ pz ≠ 0) :
    0 < Real.sqrt (px / 1000 * (px / 1000) + py / 1000 * (py / 1000) +
      pz / 1000 * (pz / 1000)) := by
  apply Real.sqrt_pos.mpr
  rcases h with h | h | h
  · have := mul_self_pos.mpr (div_ne_zero h (by norm_num : (1000 : ℝ) ≠ 0))
    nlinarith [mul_self_nonneg (py / 1000), mul_self_nonneg (pz / 1000)]
  · have := mul_self_pos.mpr (div_ne_zero h (by norm_num : (1000 : ℝ) ≠ 0))
    nlinarith [mul_self_nonneg (px / 1000), mul_self_nonneg (pz / 1000)]
  · have := mul_self_pos.mpr (div_ne_zero h (by norm_num : (1000 : ℝ) ≠ 0))
    nlinarith [mul_self_nonneg (px / 1000), mul_self_nonneg (py / 1000)]

/-- The ranging fusion step on real numbers, for strictly positive ranging and
process position covariances. -/
theorem uwbPositionBlend_vec (c : Covariances ℝ) (b1 b2 b3 g1 g2 g3 ux uy uz qx qy qz : ℝ)
    (hu : c.uwbPositionCov_ = vec b1 b2 b3) (hp : c.processPositionCov_ = vec g1 g2 g3)
    (hb1 : 0 < b1) (hb2 : 0 < b2) (hb3 : 0 < b3) (hg1 : 0 < g1) (hg2 : 0 < g2) (hg3 : 0 < g3) :
    uwbPositionBlend ⟨Real.sqrt, Real.cos, Real.sin⟩ c (vec ux uy uz) (vec qx qy qz) =
      vec (inverseCovarianceBlend ux (Real.sqrt (b1 * b2)) qx (Real.sqrt (g1 * g2)))
        (inverseCovarianceBlend uy (Real.sqrt (b1 * b2)) qy (Real.sqrt (g1 * g2)))
        (inverseCovarianceBlend uz b3 qz g3) := by
  have hb : 0 < b1 * b2 := mul_pos hb1 hb2
  have hg : 0 < g1 * g2 := mul_pos hg1 hg2
  simp only [uwbPositionBlend, uwbLateralCov, uwbDepthCov, processLateralCov, processDepthCov,
    hu, hp, vec, Fl.num_mul_num, Fl.sqrt_num, if_neg (not_lt.mpr hb.le),
    if_neg (not_lt.mpr hg.le), weightedAverage_eq_blend,
    blend_num _ _ _ _ (Real.sqrt_pos.mpr hb) (Real.sqrt_pos.mpr hg), blend_num _ _ _ _ hb3 hg3]

/-- The optical position fusion step on real numbers, for a strictly positive
percentage triple and process position covariance and a non-zero optical
position at distance `d`. -/
theorem orpePositionBlend_vec (c : Covariances ℝ)
    (a1 a2 a3 g1 g2 g3 px py pz ax ay az qx qy qz d : ℝ) (v : Bool)
    (ha : c.orpePositionCovPerc_ = vec a1 a2 a3) (hp : c.processPositionCov_ = vec g1 g2 g3)
    (ha1 : 0 < a1) (ha2 : 0 < a2) (ha3 : 0 < a3) (hg1 : 0 < g1) (hg2 : 0 < g2) (hg3 : 0 < g3)
    (hd : d = Real.sqrt (px / 1000 * (px / 1000) + py / 1000 * (py / 1000) +
      pz / 1000 * (pz / 1000)))
    (hnz : px ≠ 0 ∨ py ≠ 0 ∨ pz ≠ 0) :
    orpePositionBlend ⟨Real.sqrt, Real.cos, Real.sin⟩ c (opticalSample px py pz ax ay az v)
        (vec qx qy qz) =
      vec (inverseCovarianceBlend (px / 1000) (Real.sqrt (d * a1 * (d * a2))) qx
          (Real.sqrt (g1 * g2)))
        (inverseCovarianceBlend (py / 1000) (Real.sqrt (d * a1 * (d * a2))) qy
          (Real.sqrt (g1 * g2)))
        (inverseCovarianceBlend (pz / 1000) (d * a3) qz g3) := by
  have hdpos : 0 < d := hd ▸ orpe_dist_pos px py pz hnz
  have hl : 0 < d * a1 * (d * a2) := by positivity
  have hg : 0 < g1 * g2 := mul_pos hg1 hg2
  have hcov := orpeCov_opticalSample c px py pz ax ay az a1 a2 a3 v ha ha1.le ha2.le
  rw [← hd] at hcov
  have h1000 : (1000 : ℝ) ≠ 0 := by norm_num
  simp only [orpePositionBlend, hcov.1, hcov.2, processLateralCov, processDepthCov, hp]
  simp only [opticalSample, vec, Fl.ofNat_eq_num, Fl.num_div_num, if_neg h1000,
    Fl.num_mul_num, Fl.sqrt_num, if_neg (not_lt.mpr hg.le), weightedAverage_eq_blend,
    blend_num _ _ _ _ (Real.sqrt_pos.mpr hl) (Real.sqrt_pos.mpr hg),
    blend_num _ _ _ _ (mul_pos hdpos ha3) hg3]

/-! ## The bounds filter on the ranging sample -/

/-- C2 (as amended): the bounds filter rejects a new ranging sample exactly when
its magnitude is less than 2 or greater than 500.  A rejected sample in a
ranging-only cycle changes neither position nor attitude nor the position flag
and publishes nothing; a sample whose magnitude lies in the closed interval from
2 to 500 (so also exactly 2, exactly 500, and 250) is accepted: the position is
blended with it, marked initialised, and published. -/
theorem uwb_bounds_closed_interval (c : Covariances ℝ) (s : PoseFilter ℝ) (x y z : ℝ)
    (hnew : s.uwbNewData_ = true) (hd : s.uwbData_ = vec x y z)
    (ho : s.orpeNewData_ = false) :
    (uwbBoundsFilter ⟨Real.sqrt, Real.cos, Real.sin⟩ s.uwbData_ s.uwbNewData_ = false ↔
        Real.sqrt (x * x + y * y + z * z) < 2 ∨ 500 < Real.sqrt (x * x + y * y + z * z)) ∧
      (Real.sqrt (x * x + y * y + z * z) < 2 ∨ 500 < Real.sqrt (x * x + y * y + z * z) →
        (processNewData ⟨Real.sqrt, Real.cos, Real.sin⟩ c s).1.position_ = s.position_ ∧
        (processNewData ⟨Real.sqrt, Real.cos, Real.sin⟩ c s).1.attitude_ = s.attitude_ ∧
        (processNewData ⟨Real.sqrt, Real.cos, Real.sin⟩ c s).1.firstPosition_ =
          s.firstPosition_ ∧
        (processNewData ⟨Real.sqrt, Real.cos, Real.sin⟩ c s).2 = []) ∧
      (2 ≤ Real.sqrt (x * x + y * y + z * z) ∧ Real.sqrt (x * x + y * y + z * z) ≤ 500 →
        (processNewData ⟨Real.sqrt, Real.cos, Real.sin⟩ c s).1.position_ =
          uwbPositionBlend ⟨Real.sqrt, Real.cos, Real.sin⟩ c (vec x y z)
            (if s.firstPosition_ then vec x y z else s.position_) ∧
        (processNewData ⟨Real.sqrt, Real.cos, Real.sin⟩ c s).1.firstPosition_ = false ∧
        (processNewData ⟨Real.sqrt, Real.cos, Real.sin⟩ c s).2 =
          [Publication.position
            (processNewData ⟨Real.sqrt, Real.cos, Real.sin⟩ c s).1.position_]) := by
  have hf := uwbBoundsFilter_vec x y z true
  refine ⟨?_, ?_, ?_⟩
  · rw [hd, hnew, hf]
    simp only [Bool.true_and, decide_eq_false_iff_not, not_and_or, not_le]
  · intro h
    have h2 : (s.uwbData_.getLen ⟨Real.sqrt, Real.cos, Real.sin⟩).gt 500 = true ∨
        (s.uwbData_.getLen ⟨Real.sqrt, Real.cos, Real.sin⟩).lt 2 = true := by
      rw [hd, getLen_vec]
      rcases h with h | h
      · right; simpa [Fl.ofNat_eq_num] using h
      · left; simpa [Fl.ofNat_eq_num] using h
    have h3 := cycle_without_valid_sample ⟨Real.sqrt, Real.cos, Real.sin⟩ c s
      (Or.inl ho) (Or.inr h2)
    exact ⟨h3.2.1, h3.1, h3.2.2.2.1, h3.2.2.2.2⟩
  · intro h
    have h2 : uwbBoundsFilter ⟨Real.sqrt, Real.cos, Real.sin⟩ s.uwbData_ s.uwbNewData_ = true := by
      rw [hd, hnew, hf]
      simpa using h
    have h3 := processNewData_uwb_only ⟨Real.sqrt, Real.cos, Real.sin⟩ c s (by simp [ho]) h2
    rw [hd] at h3
    exact ⟨h3.1, h3.2.2.2.1, h3.2.2.2.2⟩

/-- Witness of C2: a new ranging sample of magnitude 250 in the initial state. -/
theorem uwb_bounds_closed_interval_witness :
    (processNewData ⟨Real.sqrt, Real.cos, Real.sin⟩ (Covariances.const (1 : ℝ))
        ((PoseFilter.initial (opticalSample 0 0 0 0 0 0 false) (vec 0 0 0)).uwbEstRecv
          (vec 250 0 0))).1.firstPosition_ = false ∧
      (processNewData ⟨Real.sqrt, Real.cos, Real.sin⟩ (Covariances.const (1 : ℝ))
        ((PoseFilter.initial (opticalSample 0 0 0 0 0 0 false) (vec 0 0 0)).uwbEstRecv
          (vec 250 0 0))).2 =
        [Publication.position
          (processNewData ⟨Real.sqrt, Real.cos, Real.sin⟩ (Covariances.const (1 : ℝ))
            ((PoseFilter.initial (opticalSample 0 0 0 0 0 0 false) (vec 0 0 0)).uwbEstRecv
              (vec 250 0 0))).1.position_] :=
  ((uwb_bounds_closed_interval (Covariances.const (1 : ℝ))
      ((PoseFilter.initial (opticalSample 0 0 0 0 0 0 false) (vec 0 0 0)).uwbEstRecv
        (vec 250 0 0)) 250 0 0 rfl rfl rfl).2.2
    (by rw [sqrt_axis 250 (by norm_num)]; norm_num)).2

/-- Counterexample to C2 as stated: new ranging samples of magnitude exactly 2
and exactly 500 pass the bounds filter, and the cycle that drains the sample
(2,0,0) in the initial state sets the position to it and publishes it. -/
theorem uwb_bounds_accepts_boundary :
    uwbBoundsFilter ⟨Real.sqrt, Real.cos, Real.sin⟩ (vec (2 : ℝ) 0 0) true = true ∧
      uwbBoundsFilter ⟨Real.sqrt, Real.cos, Real.sin⟩ (vec (500 : ℝ) 0 0) true = true ∧
      (processNewData ⟨Real.sqrt, Real.cos, Real.sin⟩ (Covariances.const (1 : ℝ))
        ((PoseFilter.initial (opticalSample 0 0 0 0 0 0 false) (vec 0 0 0)).uwbEstRecv
          (vec 2 0 0))).1.position_ = vec 2 0 0 ∧
      (processNewData ⟨Real.sqrt, Real.cos, Real.sin⟩ (Covariances.const (1 : ℝ))
        ((PoseFilter.initial (opticalSample 0 0 0 0 0 0 false) (vec 0 0 0)).uwbEstRecv
          (vec 2 0 0))).2 = [Publication.position (vec 2 0 0)] := by
  have h2 : uwbBoundsFilter ⟨Real.sqrt, Real.cos, Real.sin⟩ (vec (2 : ℝ) 0 0) true = true := by
    rw [uwbBoundsFilter_vec, sqrt_axis 2 (by norm_num)]
    norm_num
  have h500 : uwbBoundsFilter ⟨Real.sqrt, Real.cos, Real.sin⟩ (vec (500 : ℝ) 0 0) true = true := by
    rw [uwbBoundsFilter_vec, sqrt_axis 500 (by norm_num)]
    norm_num
  have hpos : (vec (1 : ℝ) 1 1).IsPositive := ⟨1, 1, 1, rfl, one_pos, one_pos, one_pos⟩
  have h := processNewData_uwb_only ⟨Real.sqrt, Real.cos, Real.sin⟩
    (Covariances.const (1 : ℝ))
    ((PoseFilter.initial (opticalSample 0 0 0 0 0 0 false) (vec 0 0 0)).uwbEstRecv (vec 2 0 0))
    rfl h2
  have hp : (processNewData ⟨Real.sqrt, Real.cos, Real.sin⟩ (Covariances.const (1 : ℝ))
      ((PoseFilter.initial (opticalSample 0 0 0 0 0 0 false) (vec 0 0 0)).uwbEstRecv
        (vec 2 0 0))).1.position_ = vec 2 0 0 := by
    rw [h.1]
    exact uwbPositionBlend_self (Covariances.const (1 : ℝ)) 2 0 0 hpos hpos
  exact ⟨h2, h500, hp, by rw [h.2.2.2.2, hp]⟩

/-! ## Order of the two fusion steps -/

/-- C4: in every cycle in which the optical sample is new and valid and the
ranging sample is new and passes the bounds filter, the final position is the
two-stage blend: per axis, the inverse-covariance blend of the ranging position
(ranging lateral or depth covariance against the process covariance) with the
result of the inverse-covariance blend of the optical position in metres
(optical lateral or depth covariance against the process covariance) with the
position that enters the fusion steps, which is the position of the state, or
the optical seed when the position was not yet initialised.  The order matters:
with all constants 1, prior position at the origin, optical position (1000,0,0)
mm and ranging position (4,0,0), the cycle gives x = 9/4, the two steps in the
opposite order give x = 3/2, and one combined three-way blend gives 5/3. -/
theorem two_stage_blend_order (c : Covariances ℝ) (s : PoseFilter ℝ)
    (ho : s.orpeNewData_ = true) (hv : s.orpeData_.valid = true) (hu : s.uwbNewData_ = true)
    (hgt : (s.uwbData_.getLen ⟨Real.sqrt, Real.cos, Real.sin⟩).gt 500 = false)
    (hlt : (s.uwbData_.getLen ⟨Real.sqrt, Real.cos, Real.sin⟩).lt 2 = false) :
    (processNewData ⟨Real.sqrt, Real.cos, Real.sin⟩ c s).1.position_ =
        ⟨inverseCovarianceBlend s.uwbData_.x (uwbLateralCov ⟨Real.sqrt, Real.cos, Real.sin⟩ c)
            (inverseCovarianceBlend (s.orpeData_.px / 1000)
              (orpeLateralCov ⟨Real.sqrt, Real.cos, Real.sin⟩ c s.orpeData_)
              (if s.firstPosition_ then s.orpeData_.px / 1000 else s.position_.x)
              (processLateralCov ⟨Real.sqrt, Real.cos, Real.sin⟩ c))
            (processLateralCov ⟨Real.sqrt, Real.cos, Real.sin⟩ c),
          inverseCovarianceBlend s.uwbData_.y (uwbLateralCov ⟨Real.sqrt, Real.cos, Real.sin⟩ c)
            (inverseCovarianceBlend (s.orpeData_.py / 1000)
              (orpeLateralCov ⟨Real.sqrt, Real.cos, Real.sin⟩ c s.orpeData_)
              (if s.firstPosition_ then s.orpeData_.py / 1000 else s.position_.y)
              (processLateralCov ⟨Real.sqrt, Real.cos, Real.sin⟩ c))
            (processLateralCov ⟨Real.sqrt, Real.cos, Real.sin⟩ c),
          inverseCovarianceBlend s.uwbData_.z (uwbDepthCov c)
            (inverseCovarianceBlend (s.orpeData_.pz / 1000)
              (orpeDepthCov ⟨Real.sqrt, Real.cos, Real.sin⟩ c s.orpeData_)
              (if s.firstPosition_ then s.orpeData_.pz / 1000 else s.position_.z)
              (processDepthCov c))
            (processDepthCov c)⟩ ∧
      (processNewData ⟨Real.sqrt, Real.cos, Real.sin⟩ (Covariances.const 1)
          (PoseFilter.running (vec 0 0 0) (opticalSample 1000 0 0 1 0 0 true)
            (vec 4 0 0))).1.position_ = vec (9 / 4) 0 0 ∧
      orpePositionBlend ⟨Real.sqrt, Real.cos, Real.sin⟩ (Covariances.const 1)
          (opticalSample 1000 0 0 1 0 0 true)
          (uwbPositionBlend ⟨Real.sqrt, Real.cos, Real.sin⟩ (Covariances.const 1) (vec 4 0 0)
            (vec 0 0 0)) = vec (3 / 2) 0 0 ∧
      (1000 / 1000 / 1 + 4 / 1 + 0 / 1) / (1 / 1 + 1 / 1 + 1 / 1) = (5 / 3 : ℝ) := by
  have hd1 : (1 : ℝ) = Real.sqrt (1000 / 1000 * (1000 / 1000) + 0 / 1000 * (0 / 1000) +
      0 / 1000 * (0 / 1000)) := by norm_num
  have hO := fun qx qy qz : ℝ => orpePositionBlend_vec (Covariances.const 1) 1 1 1 1 1 1
    1000 0 0 1 0 0 qx qy qz 1 true rfl rfl one_pos one_pos one_pos one_pos one_pos one_pos hd1
    (Or.inl (by norm_num))
  have hU := fun ux uy uz qx qy qz : ℝ => uwbPositionBlend_vec (Covariances.const 1) 1 1 1 1 1 1
    ux uy uz qx qy qz rfl rfl one_pos one_pos one_pos one_pos one_pos one_pos
  refine ⟨?_, ?_, ?_, by norm_num⟩
  · have hf : uwbBoundsFilter ⟨Real.sqrt, Real.cos, Real.sin⟩ s.uwbData_ s.uwbNewData_ = true := by
      unfold uwbBoundsFilter
      rw [hgt, hlt, hu]
      rfl
    rw [processNewData_both_position _ c s (by simp [ho, hv]) hf]
    cases s.firstPosition_ <;>
      simp only [uwbPositionBlend, orpePositionBlend, weightedAverage_eq_blend, if_true, if_false,
        Bool.false_eq_true]
  · have hf : uwbBoundsFilter ⟨Real.sqrt, Real.cos, Real.sin⟩ (vec (4 : ℝ) 0 0) true = true := by
      rw [uwbBoundsFilter_vec, sqrt_axis 4 (by norm_num)]
      norm_num
    rw [processNewData_both_position _ (Covariances.const 1)
      (PoseFilter.running (vec 0 0 0) (opticalSample 1000 0 0 1 0 0 true) (vec 4 0 0)) rfl hf]
    simp only [PoseFilter.running, Bool.false_eq_true, if_false, hO, hU]
    norm_num [inverseCovarianceBlend, vec]
  · rw [hU, hO]
    norm_num [inverseCovarianceBlend, vec]

/-- Witness of C4: the state with prior position at the origin, optical position
(1000,0,0) mm and ranging position (4,0,0). -/
theorem two_stage_blend_order_witness :
    (processNewData ⟨Real.sqrt, Real.cos, Real.sin⟩ (Covariances.const 1)
        (PoseFilter.running (vec 0 0 0) (opticalSample 1000 0 0 1 0 0 true)
          (vec 4 0 0))).1.position_ = vec (9 / 4 : ℝ) 0 0 :=
  (two_stage_blend_order (Covariances.const 1)
    (PoseFilter.running (vec 0 0 0) (opticalSample 1000 0 0 1 0 0 true) (vec 4 0 0))
    rfl rfl rfl
    (by rw [show (PoseFilter.running (vec 0 0 0) (opticalSample 1000 0 0 1 0 0 true)
        (vec (4 : ℝ) 0 0)).uwbData_ = vec 4 0 0 from rfl, getLen_vec, sqrt_axis 4 (by norm_num)]
        simp [Fl.ofNat_eq_num]
        norm_num)
    (by rw [show (PoseFilter.running (vec 0 0 0) (opticalSample 1000 0 0 1 0 0 true)
        (vec (4 : ℝ) 0 0)).uwbData_ = vec 4 0 0 from rfl, getLen_vec, sqrt_axis 4 (by norm_num)]
        simp [Fl.ofNat_eq_num]
        norm_num)).2.1

/-! ## The zero rotation vector -/

/-- Normalizing the zero rotation vector divides by its zero length: the axis is
undefined in every component, and so are the vector parts of the bootstrap
quaternion and of the optical rotation quaternion. -/
theorem zero_rotation_undefined (px py pz : ℝ) (v : Bool) :
    Vector3D_F.normalize ⟨Real.sqrt, Real.cos, Real.sin⟩
        ⟨(opticalSample px py pz 0 0 0 v).ax, (opticalSample px py pz 0 0 0 v).ay,
          (opticalSample px py pz 0 0 0 v).az⟩ = ⟨Fl.undef, Fl.undef, Fl.undef⟩ ∧
      (orpeRotQuat ⟨Real.sqrt, Real.cos, Real.sin⟩ (opticalSample px py pz 0 0 0 v)).q =
        ⟨Fl.undef, Fl.undef, Fl.undef⟩ := by
  have h : Vector3D_F.normalize ⟨Real.sqrt, Real.cos, Real.sin⟩
      ⟨(opticalSample px py pz 0 0 0 v).ax, (opticalSample px py pz 0 0 0 v).ay,
        (opticalSample px py pz 0 0 0 v).az⟩ = ⟨Fl.undef, Fl.undef, Fl.undef⟩ := by
    simp [Vector3D_F.normalize, Vector3D_F.getLen, opticalSample]
  refine ⟨h, ?_⟩
  unfold orpeRotQuat
  simp only [h, Quaternion_F.ofAngleAxis, Fl.undef_mul]

/-- A quaternion whose vector part is undefined is undefined in every component
once it is blended with the optical rotation quaternion and normalized. -/
theorem normalize_blend_undefined (c : Covariances ℝ) (tele : OrpeTelemetry ℝ)
    (a : Quaternion_F ℝ)
    (h : (orpeRotQuat ⟨Real.sqrt, Real.cos, Real.sin⟩ tele).q =
      ⟨Fl.undef, Fl.undef, Fl.undef⟩) :
    (orpeAttitudeBlend ⟨Real.sqrt, Real.cos, Real.sin⟩ c tele a).normalize
        ⟨Real.sqrt, Real.cos, Real.sin⟩ =
      ⟨Fl.undef, ⟨Fl.undef, Fl.undef, Fl.undef⟩⟩ := by
  simp [orpeAttitudeBlend, Quaternion_F.normalize, Quaternion_F.getLen, Quaternion_F.normSq,
    Quaternion_F.divide, Quaternion_F.add, Quaternion_F.scale, h]

/-- The attitude after a cycle that drains a new valid optical sample with
rotation vector (0,0,0) is undefined in every component. -/
theorem zero_rotation_cycle (c : Covariances ℝ) (s : PoseFilter ℝ) (px py pz : ℝ)
    (ho : s.orpeNewData_ = true) (hd : s.orpeData_ = opticalSample px py pz 0 0 0 true) :
    (processNewData ⟨Real.sqrt, Real.cos, Real.sin⟩ c s).1.attitude_ =
      ⟨Fl.undef, ⟨Fl.undef, Fl.undef, Fl.undef⟩⟩ := by
  rw [(processNewData_orpe_attitude _ c s (by rw [ho, hd]; rfl)).1, hd]
  exact normalize_blend_undefined c _ _ (zero_rotation_undefined px py pz true).2

/-- C7 (as amended): starting from a state whose attitude is not yet initialised
(the initial state is one), if the first new valid optical sample has rotation
vector (0,0,0), the axis normalization at bootstrap and in the fusion step
divides by the zero length; no fallback is applied, the attitude is marked
initialised, and the attitude stored and published after that cycle is undefined
in every component, whatever the covariance constants and the optical
position. -/
theorem zero_rotation_no_fallback (c : Covariances ℝ) (s : PoseFilter ℝ) (px py pz : ℝ)
    (hfa : s.firstAttitude_ = true) (ho : s.orpeNewData_ = true)
    (hd : s.orpeData_ = opticalSample px py pz 0 0 0 true) :
    (bootstrapAttitude ⟨Real.sqrt, Real.cos, Real.sin⟩ true s.orpeData_ s).attitude_.q =
        ⟨Fl.undef, Fl.undef, Fl.undef⟩ ∧
      (processNewData ⟨Real.sqrt, Real.cos, Real.sin⟩ c s).1.attitude_ =
        ⟨Fl.undef, ⟨Fl.undef, Fl.undef, Fl.undef⟩⟩ ∧
      (processNewData ⟨Real.sqrt, Real.cos, Real.sin⟩ c s).1.firstAttitude_ = false ∧
      (processNewData ⟨Real.sqrt, Real.cos, Real.sin⟩ c s).2 =
        [Publication.attitude ⟨Fl.undef, ⟨Fl.undef, Fl.undef, Fl.undef⟩⟩,
          Publication.position (processNewData ⟨Real.sqrt, Real.cos, Real.sin⟩ c s).1.position_]
    := by
  have h := processNewData_orpe_attitude ⟨Real.sqrt, Real.cos, Real.sin⟩ c s
    (by rw [ho, hd]; rfl)
  have ha := zero_rotation_cycle c s px py pz ho hd
  refine ⟨?_, ha, h.2.1, by rw [h.2.2.2, ha]⟩
  have hz := (zero_rotation_undefined px py pz true).1
  simp only [bootstrapAttitude, hfa, Bool.and_self, if_true, hd, hz]

/-- Witness of C7 (as amended): the initial state with the optical sample of
position (1000,0,0) mm and rotation vector (0,0,0). -/
theorem zero_rotation_no_fallback_witness :
    (processNewData ⟨Real.sqrt, Real.cos, Real.sin⟩ (Covariances.const (1 : ℝ))
        ((PoseFilter.initial (opticalSample 0 0 0 0 0 0 false) (vec 0 0 0)).orpeEstRecv
          (opticalSample 1000 0 0 0 0 0 true))).1.attitude_ =
      ⟨Fl.undef, ⟨Fl.undef, Fl.undef, Fl.undef⟩⟩ :=
  (zero_rotation_no_fallback (Covariances.const (1 : ℝ))
    ((PoseFilter.initial (opticalSample 0 0 0 0 0 0 false) (vec 0 0 0)).orpeEstRecv
      (opticalSample 1000 0 0 0 0 0 true)) 1000 0 0 rfl rfl rfl).2.1

/-- Counterexample to C7 as stated: in the initial state, after the cycle that
drains the first valid optical sample, of rotation vector (0,0,0), the attitude
is not the identity quaternion (1,0,0,0). -/
theorem zero_rotation_not_identity :
    (processNewData ⟨Real.sqrt, Real.cos, Real.sin⟩ (Covariances.const (1 : ℝ))
        ((PoseFilter.initial (opticalSample 0 0 0 0 0 0 false) (vec 0 0 0)).orpeEstRecv
          (opticalSample 1000 0 0 0 0 0 true))).1.attitude_ ≠ quat 1 0 0 0 := by
  rw [zero_rotation_cycle (Covariances.const (1 : ℝ)) _ 1000 0 0 rfl rfl]
  simp [quat]

/-! ## Priority of the optical sample at the position bootstrap -/

/-- The position after a cycle does not depend on the position held before it
when the position is not yet initialised and the optical sample is new and
valid. -/
theorem processNewData_position_seeded (M : MathLib F) (c : Covariances F) (s : PoseFilter F)
    (p : Vector3D_F F) (hfp : s.firstPosition_ = true)
    (ho : (s.orpeNewData_ && s.orpeData_.valid) = true) :
    (processNewData M c { s with position_ := p }).1.position_ =
      (processNewData M c s).1.position_ := by
  cases hfa : s.firstAttitude_ <;> cases hu : uwbBoundsFilter M s.uwbData_ s.uwbNewData_ <;>
    simp [processNewData, ho, hu, hfa, hfp, bootstrapAttitude, bootstrapPositionOrpe,
      bootstrapPositionUwb, orpeFusion, uwbFusion]

/-- C10 (as amended): when the position is not yet initialised and one cycle
drains both a new valid optical sample and a new ranging sample that passes the
bounds filter, the position is seeded from the optical sample converted to
metres and not from the ranging sample; the end-of-cycle position is the ranging
blend applied to the result of the optical fusion step on that seed, the seed
blended with itself, which is not the seed in general (it is undefined for the
sample (0,0,0)); and it does not depend on the position held before the
cycle. -/
theorem optical_seed_before_ranging (M : MathLib F) (c : Covariances F) (s : PoseFilter F)
    (hfp : s.firstPosition_ = true) (ho : s.orpeNewData_ = true)
    (hv : s.orpeData_.valid = true) (hu : s.uwbNewData_ = true)
    (hgt : (s.uwbData_.getLen M).gt 500 = false) (hlt : (s.uwbData_.getLen M).lt 2 = false) :
    (bootstrapPositionUwb true s.uwbData_
        (bootstrapPositionOrpe true s.orpeData_ s)).position_ =
        ⟨s.orpeData_.px / 1000, s.orpeData_.py / 1000, s.orpeData_.pz / 1000⟩ ∧
      (processNewData M c s).1.position_ =
        uwbPositionBlend M c s.uwbData_
          (orpePositionBlend M c s.orpeData_
            ⟨s.orpeData_.px / 1000, s.orpeData_.py / 1000, s.orpeData_.pz / 1000⟩) ∧
      ∀ p : Vector3D_F F,
        (processNewData M c { s with position_ := p }).1.position_ =
          (processNewData M c s).1.position_ := by
  have hov : (s.orpeNewData_ && s.orpeData_.valid) = true := by rw [ho, hv]; rfl
  have hf : uwbBoundsFilter M s.uwbData_ s.uwbNewData_ = true := by
    unfold uwbBoundsFilter
    rw [hgt, hlt, hu]
    rfl
  refine ⟨?_, ?_, fun p => processNewData_position_seeded M c s p hfp hov⟩
  · simp [bootstrapPositionUwb, bootstrapPositionOrpe, hfp]
  · rw [processNewData_both_position M c s hov hf, hfp, if_pos rfl]

/-- Witness of C10 (as amended): the initial state with the optical position
(1000,0,0) mm and the ranging position (4,0,0), all constants 1. -/
theorem optical_seed_before_ranging_witness :
    (processNewData ⟨Real.sqrt, Real.cos, Real.sin⟩ (Covariances.const (1 : ℝ))
        (((PoseFilter.initial (opticalSample 0 0 0 0 0 0 false) (vec 0 0 0)).orpeEstRecv
          (opticalSample 1000 0 0 1 0 0 true)).uwbEstRecv (vec 4 0 0))).1.position_ =
      uwbPositionBlend ⟨Real.sqrt, Real.cos, Real.sin⟩ (Covariances.const (1 : ℝ)) (vec 4 0 0)
        (orpePositionBlend ⟨Real.sqrt, Real.cos, Real.sin⟩ (Covariances.const (1 : ℝ))
          (opticalSample 1000 0 0 1 0 0 true)
          ⟨Fl.num 1000 / 1000, Fl.num 0 / 1000, Fl.num 0 / 1000⟩) :=
  (optical_seed_before_ranging ⟨Real.sqrt, Real.cos, Real.sin⟩ (Covariances.const (1 : ℝ))
    (((PoseFilter.initial (opticalSample 0 0 0 0 0 0 false) (vec 0 0 0)).orpeEstRecv
      (opticalSample 1000 0 0 1 0 0 true)).uwbEstRecv (vec 4 0 0))
    rfl rfl rfl rfl
    (by
      rw [show (((PoseFilter.initial (opticalSample 0 0 0 0 0 0 false) (vec 0 0 0)).orpeEstRecv
        (opticalSample 1000 0 0 1 0 0 true)).uwbEstRecv (vec (4 : ℝ) 0 0)).uwbData_ =
        vec 4 0 0 from rfl, getLen_vec, sqrt_axis 4 (by norm_num)]
      simp [Fl.ofNat_eq_num]
      norm_num)
    (by
      rw [show (((PoseFilter.initial (opticalSample 0 0 0 0 0 0 false) (vec 0 0 0)).orpeEstRecv
        (opticalSample 1000 0 0 1 0 0 true)).uwbEstRecv (vec (4 : ℝ) 0 0)).uwbData_ =
        vec 4 0 0 from rfl, getLen_vec, sqrt_axis 4 (by norm_num)]
      simp [Fl.ofNat_eq_num]
      norm_num)).2.1

/-- Counterexample to C10 as stated: in the initial state, with all constants 1,
the cycle that drains the valid optical sample of position (0,0,0) and the
ranging sample (4,0,0) leaves the position undefined in every component, while
the ranging blend applied to the optical position in metres is (2,0,0). -/
theorem optical_seed_zero_position :
    (processNewData ⟨Real.sqrt, Real.cos, Real.sin⟩ (Covariances.const (1 : ℝ))
        (((PoseFilter.initial (opticalSample 0 0 0 0 0 0 false) (vec 0 0 0)).orpeEstRecv
          (opticalSample 0 0 0 1 0 0 true)).uwbEstRecv (vec 4 0 0))).1.position_ =
        ⟨Fl.undef, Fl.undef, Fl.undef⟩ ∧
      uwbPositionBlend ⟨Real.sqrt, Real.cos, Real.sin⟩ (Covariances.const (1 : ℝ)) (vec 4 0 0)
        (vec (0 / 1000) (0 / 1000) (0 / 1000)) = vec 2 0 0 := by
  have hf : uwbBoundsFilter ⟨Real.sqrt, Real.cos, Real.sin⟩ (vec (4 : ℝ) 0 0) true = true := by
    rw [uwbBoundsFilter_vec, sqrt_axis 4 (by norm_num)]
    norm_num
  constructor
  · rw [processNewData_both_position _ (Covariances.const (1 : ℝ))
      (((PoseFilter.initial (opticalSample 0 0 0 0 0 0 false) (vec 0 0 0)).orpeEstRecv
        (opticalSample 0 0 0 1 0 0 true)).uwbEstRecv (vec 4 0 0)) rfl hf]
    have hcov := orpeCov_opticalSample (Covariances.const (1 : ℝ)) 0 0 0 1 0 0 1 1 1 true rfl
      zero_le_one zero_le_one
    norm_num at hcov
    simp only [PoseFilter.uwbEstRecv, PoseFilter.orpeEstRecv, uwbPositionBlend, orpePositionBlend,
      hcov.1, hcov.2, weightedAverage_zero_cov, weightedAverage_undef_prior]
  · rw [uwbPositionBlend_vec (Covariances.const (1 : ℝ)) 1 1 1 1 1 1 4 0 0 _ _ _ rfl rfl
      one_pos one_pos one_pos one_pos one_pos one_pos]
    norm_num [inverseCovarianceBlend, vec]

/-! ## Norm of the attitude -/

/-- The attitude that the bootstrap step leaves when the optical sample is new
and valid. -/
theorem bootstrapAttitude_attitude (M : MathLib F) (tele : OrpeTelemetry F) (s : PoseFilter F) :
    (bootstrapAttitude M true tele s).attitude_ =
      if s.firstAttitude_ then
        Quaternion_F.mk (Vector3D_F.getLen M ⟨tele.ax, tele.ay, tele.az⟩)
          (Vector3D_F.normalize M ⟨tele.ax, tele.ay, tele.az⟩)
      else s.attitude_ := by
  cases h : s.firstAttitude_ <;> simp [bootstrapAttitude, h]

/-- The sum of four squares is not negative. -/
theorem four_squares_nonneg (w x y z : ℝ) : 0 ≤ w * w + x * x + y * y + z * z :=
  add_nonneg (add_nonneg (add_nonneg (mul_self_nonneg w) (mul_self_nonneg x))
    (mul_self_nonneg y)) (mul_self_nonneg z)

/-- The sum of four squares is zero only if the four numbers are zero. -/
theorem four_squares_eq_zero (w x y z : ℝ) (h : w * w + x * x + y * y + z * z = 0) :
    w = 0 ∧ x = 0 ∧ y = 0 ∧ z = 0 := by
  have hw := mul_self_nonneg w
  have hx := mul_self_nonneg x
  have hy := mul_self_nonneg y
  have hz := mul_self_nonneg z
  refine ⟨?_, ?_, ?_, ?_⟩ <;> apply mul_self_eq_zero.mp <;> linarith

/-- Normalizing a quaternion of four numbers that are not all zero divides each
by the strictly positive norm, and the result has squared norm exactly 1. -/
theorem normalize_quat (w x y z : ℝ) (h : ¬ (w = 0 ∧ x = 0 ∧ y = 0 ∧ z = 0)) :
    Quaternion_F.normalize ⟨Real.sqrt, Real.cos, Real.sin⟩ (quat w x y z) =
        quat (w / Real.sqrt (w * w + x * x + y * y + z * z))
          (x / Real.sqrt (w * w + x * x + y * y + z * z))
          (y / Real.sqrt (w * w + x * x + y * y + z * z))
          (z / Real.sqrt (w * w + x * x + y * y + z * z)) ∧
      (Quaternion_F.normalize ⟨Real.sqrt, Real.cos, Real.sin⟩ (quat w x y z)).normSq =
        Fl.num 1 := by
  have hnn := four_squares_nonneg w x y z
  have hpos : 0 < w * w + x * x + y * y + z * z :=
    lt_of_le_of_ne hnn (fun h0 => h (four_squares_eq_zero w x y z h0.symm))
  have hn : Real.sqrt (w * w + x * x + y * y + z * z) ≠ 0 := (Real.sqrt_pos.mpr hpos).ne.symm
  have heq : Quaternion_F.normalize ⟨Real.sqrt, Real.cos, Real.sin⟩ (quat w x y z) =
      quat (w / Real.sqrt (w * w + x * x + y * y + z * z))
        (x / Real.sqrt (w * w + x * x + y * y + z * z))
        (y / Real.sqrt (w * w + x * x + y * y + z * z))
        (z / Real.sqrt (w * w + x * x + y * y + z * z)) := by
    simp only [Quaternion_F.normalize, Quaternion_F.getLen, Quaternion_F.normSq,
      Quaternion_F.divide, quat, vec, Fl.num_mul_num, Fl.num_add_num, Fl.sqrt_num,
      if_neg (not_lt.mpr hnn), Fl.num_div_num, if_neg hn]
  refine ⟨heq, ?_⟩
  rw [heq]
  simp only [Quaternion_F.normSq, quat, vec, Fl.num_mul_num, Fl.num_add_num]
  congr 1
  field_simp

/-- Normalizing a quaternion that has an undefined component, or that is the
zero quaternion, gives a quaternion whose squared norm is undefined. -/
theorem normalize_degenerate (p : Quaternion_F ℝ)
    (h : ¬ ∃ w x y z : ℝ, p = quat w x y z ∧ ¬ (w = 0 ∧ x = 0 ∧ y = 0 ∧ z = 0)) :
    Quaternion_F.normalize ⟨Real.sqrt, Real.cos, Real.sin⟩ p =
      ⟨Fl.undef, ⟨Fl.undef, Fl.undef, Fl.undef⟩⟩ := by
  obtain ⟨p0, ⟨p1, p2, p3⟩⟩ := p
  cases p0 <;> cases p1 <;> cases p2 <;> cases p3 <;>
    try simp [Quaternion_F.normalize, Quaternion_F.getLen, Quaternion_F.normSq,
      Quaternion_F.divide]
  rename_i w x y z
  have hz : w = 0 ∧ x = 0 ∧ y = 0 ∧ z = 0 := by
    by_contra hne
    exact h ⟨w, x, y, z, rfl, hne⟩
  obtain ⟨rfl, rfl, rfl, rfl⟩ := hz
  simp [Quaternion_F.normalize, Quaternion_F.getLen, Quaternion_F.normSq, Quaternion_F.divide]

/-- The optical rotation quaternion and the bootstrap quaternion of a sample
whose rotation vector has non-zero length `t`: the first is
`(cos(t/2), sin(t/2) * r/t)`, the second has scalar part `t` and vector part
`r/t`. -/
theorem rotation_quaternions (px py pz ax ay az : ℝ) (v : Bool)
    (ht : Real.sqrt (ax * ax + ay * ay + az * az) ≠ 0) :
    orpeRotQuat ⟨Real.sqrt, Real.cos, Real.sin⟩ (opticalSample px py pz ax ay az v) =
        quat (Real.cos (Real.sqrt (ax * ax + ay * ay + az * az) / 2))
          (ax / Real.sqrt (ax * ax + ay * ay + az * az) *
            Real.sin (Real.sqrt (ax * ax + ay * ay + az * az) / 2))
          (ay / Real.sqrt (ax * ax + ay * ay + az * az) *
            Real.sin (Real.sqrt (ax * ax + ay * ay + az * az) / 2))
          (az / Real.sqrt (ax * ax + ay * ay + az * az) *
            Real.sin (Real.sqrt (ax * ax + ay * ay + az * az) / 2)) ∧
      Quaternion_F.mk
          (Vector3D_F.getLen ⟨Real.sqrt, Real.cos, Real.sin⟩
            ⟨(opticalSample px py pz ax ay az v).ax, (opticalSample px py pz ax ay az v).ay,
              (opticalSample px py pz ax ay az v).az⟩)
          (Vector3D_F.normalize ⟨Real.sqrt, Real.cos, Real.sin⟩
            ⟨(opticalSample px py pz ax ay az v).ax, (opticalSample px py pz ax ay az v).ay,
              (opticalSample px py pz ax ay az v).az⟩) =
        quat (Real.sqrt (ax * ax + ay * ay + az * az))
          (ax / Real.sqrt (ax * ax + ay * ay + az * az))
          (ay / Real.sqrt (ax * ax + ay * ay + az * az))
          (az / Real.sqrt (ax * ax + ay * ay + az * az)) := by
  have hv : (⟨(opticalSample px py pz ax ay az v).ax, (opticalSample px py pz ax ay az v).ay,
      (opticalSample px py pz ax ay az v).az⟩ : Vector3D_F ℝ) = vec ax ay az := rfl
  have h2 : (2 : ℝ) ≠ 0 := two_ne_zero
  constructor
  · unfold orpeRotQuat
    simp only [hv, Vector3D_F.normalize, getLen_vec, Quaternion_F.ofAngleAxis]
    simp only [opticalSample, vec, quat, Fl.num_div_num, if_neg ht, Fl.ofNat_eq_num, if_neg h2,
      Fl.cos_num, Fl.sin_num, Fl.num_mul_num]
  · simp only [hv, Vector3D_F.normalize, getLen_vec]
    simp only [opticalSample, vec, quat, Fl.num_div_num, if_neg ht]

/-- The blended quaternion of line 136 on real numbers, for a strictly positive
process attitude covariance triple: with `k` the square root of the product of
the triple, each component is `(q * 1/1 + a * 1/k) / (1/1 + 1/k)`. -/
theorem orpeAttitudeBlend_quat (c : Covariances ℝ) (tele : OrpeTelemetry ℝ)
    (h1 h2 h3 q0 q1 q2 q3 a0 a1 a2 a3 : ℝ)
    (hq : orpeRotQuat ⟨Real.sqrt, Real.cos, Real.sin⟩ tele = quat q0 q1 q2 q3)
    (hc : c.processAttitudeCov_ = vec h1 h2 h3) (hh1 : 0 < h1) (hh2 : 0 < h2) (hh3 : 0 < h3) :
    orpeAttitudeBlend ⟨Real.sqrt, Real.cos, Real.sin⟩ c tele (quat a0 a1 a2 a3) =
      quat ((q0 * 1 / 1 + a0 * 1 / Real.sqrt (h1 * h2 * h3)) /
          (1 / 1 + 1 / Real.sqrt (h1 * h2 * h3)))
        ((q1 * 1 / 1 + a1 * 1 / Real.sqrt (h1 * h2 * h3)) /
          (1 / 1 + 1 / Real.sqrt (h1 * h2 * h3)))
        ((q2 * 1 / 1 + a2 * 1 / Real.sqrt (h1 * h2 * h3)) /
          (1 / 1 + 1 / Real.sqrt (h1 * h2 * h3)))
        ((q3 * 1 / 1 + a3 * 1 / Real.sqrt (h1 * h2 * h3)) /
          (1 / 1 + 1 / Real.sqrt (h1 * h2 * h3))) := by
  have hprod : 0 < h1 * h2 * h3 := by positivity
  have hk : 0 < Real.sqrt (h1 * h2 * h3) := Real.sqrt_pos.mpr hprod
  have hinv : 0 < 1 / Real.sqrt (h1 * h2 * h3) := by positivity
  have hsum : (1 : ℝ) / 1 + 1 / Real.sqrt (h1 * h2 * h3) ≠ 0 := by
    have : (0 : ℝ) < 1 / 1 := by norm_num
    linarith
  have hone : ¬ ((1 : ℝ) * 1 * 1 < 0) := by norm_num
  have hs1 : Real.sqrt ((1 : ℝ) * 1 * 1) = 1 := by norm_num
  have h10 : (1 : ℝ) ≠ 0 := one_ne_zero
  simp only [orpeAttitudeBlend, hq, orpeAttCov, attitudeNoiseCov, hc, quat, vec,
    Quaternion_F.scale, Quaternion_F.divide, Quaternion_F.add, Fl.ofNat_eq_num, Fl.num_mul_num,
    Fl.sqrt_num, if_neg hone, hs1, if_neg (not_lt.mpr hprod.le), Fl.num_div_num, if_neg h10,
    if_neg hk.ne.symm, Fl.num_add_num, if_neg hsum]

/-- C1 (as amended): after a cycle that updates the attitude (optical sample new
and valid), the stored attitude, which is also the published one, has norm
exactly 1 if and only if the blended quaternion that the fusion step normalizes
is defined and is not the zero quaternion; the blended quaternion can be the
zero quaternion, and the stored attitude is then undefined. -/
theorem attitude_unit_norm_iff (c : Covariances ℝ) (s : PoseFilter ℝ)
    (ho : s.orpeNewData_ = true) (hv : s.orpeData_.valid = true) :
    ((processNewData ⟨Real.sqrt, Real.cos, Real.sin⟩ c s).1.attitude_.normSq = Fl.num 1 ↔
        ∃ w x y z : ℝ,
          orpeAttitudeBlend ⟨Real.sqrt, Real.cos, Real.sin⟩ c s.orpeData_
            (bootstrapAttitude ⟨Real.sqrt, Real.cos, Real.sin⟩ true s.orpeData_ s).attitude_ =
            quat w x y z ∧ ¬ (w = 0 ∧ x = 0 ∧ y = 0 ∧ z = 0)) ∧
      (processNewData ⟨Real.sqrt, Real.cos, Real.sin⟩ c s).2 =
        [Publication.attitude (processNewData ⟨Real.sqrt, Real.cos, Real.sin⟩ c s).1.attitude_,
          Publication.position (processNewData ⟨Real.sqrt, Real.cos, Real.sin⟩ c s).1.position_]
    := by
  have h := processNewData_orpe_attitude ⟨Real.sqrt, Real.cos, Real.sin⟩ c s (by simp [ho, hv])
  refine ⟨?_, h.2.2.2⟩
  rw [h.1, ← bootstrapAttitude_attitude]
  constructor
  · intro hn
    by_contra hne
    rw [normalize_degenerate _ hne] at hn
    simp [Quaternion_F.normSq] at hn
  · rintro ⟨w, x, y, z, hq, hne⟩
    rw [hq]
    exact (normalize_quat w x y z hne).2

/-- The attitude after the first cycle from the initial state, with all
constants 1 and the optical rotation vector (pi,0,0): the optical rotation
quaternion (0,1,0,0) is blended with the bootstrap quaternion (pi,1,0,0) and
normalized; `n` is the square root of `pi^2/4 + 1`. -/
theorem first_cycle_pi (n : ℝ) (hn : n = Real.sqrt (Real.pi ^ 2 / 4 + 1)) :
    (processNewData ⟨Real.sqrt, Real.cos, Real.sin⟩ (Covariances.const (1 : ℝ))
      ((PoseFilter.initial (opticalSample 1000 0 0 Real.pi 0 0 true) (vec 0 0 0)).orpeEstRecv
        (opticalSample 1000 0 0 Real.pi 0 0 true))).1.attitude_ =
      quat (Real.pi / 2 / n) (1 / n) 0 0 := by
  subst hn
  have hpi : Real.sqrt (Real.pi * Real.pi + 0 * 0 + 0 * 0) = Real.pi :=
    sqrt_axis Real.pi Real.pi_pos.le
  have hne : Real.sqrt (Real.pi * Real.pi + 0 * 0 + 0 * 0) ≠ 0 := by
    rw [hpi]
    exact Real.pi_ne_zero
  have hr := rotation_quaternions 1000 0 0 Real.pi 0 0 true hne
  rw [hpi] at hr
  have hb := orpeAttitudeBlend_quat (Covariances.const (1 : ℝ))
    (opticalSample 1000 0 0 Real.pi 0 0 true) 1 1 1 _ _ _ _ Real.pi (Real.pi / Real.pi)
    (0 / Real.pi) (0 / Real.pi) hr.1 rfl one_pos one_pos one_pos
  rw [(processNewData_orpe_attitude _ (Covariances.const (1 : ℝ))
    ((PoseFilter.initial (opticalSample 1000 0 0 Real.pi 0 0 true) (vec 0 0 0)).orpeEstRecv
        (opticalSample 1000 0 0 Real.pi 0 0 true)) rfl).1]
  simp only [PoseFilter.orpeEstRecv, PoseFilter.initial, PoseFilter.init, if_true, hr.2, hb]
  have hnz : ¬ ((Real.cos (Real.pi / 2) * 1 / 1 + Real.pi * 1 / Real.sqrt (1 * 1 * 1)) /
        (1 / 1 + 1 / Real.sqrt (1 * 1 * 1)) = 0 ∧
      (Real.pi / Real.pi * Real.sin (Real.pi / 2) * 1 / 1 +
          Real.pi / Real.pi * 1 / Real.sqrt (1 * 1 * 1)) /
        (1 / 1 + 1 / Real.sqrt (1 * 1 * 1)) = 0 ∧
      (0 / Real.pi * Real.sin (Real.pi / 2) * 1 / 1 + 0 / Real.pi * 1 / Real.sqrt (1 * 1 * 1)) /
        (1 / 1 + 1 / Real.sqrt (1 * 1 * 1)) = 0 ∧
      (0 / Real.pi * Real.sin (Real.pi / 2) * 1 / 1 + 0 / Real.pi * 1 / Real.sqrt (1 * 1 * 1)) /
        (1 / 1 + 1 / Real.sqrt (1 * 1 * 1)) = 0) := by
    intro h
    have := h.2.1
    simp [Real.pi_ne_zero] at this
  rw [(normalize_quat _ _ _ _ hnz).1]
  simp only [Real.cos_pi_div_two, Real.sin_pi_div_two, div_self Real.pi_ne_zero, mul_one,
    Real.sqrt_one, div_one, zero_div, zero_mul, add_zero, zero_add, mul_zero]
  rw [show Real.pi / (1 + 1) * (Real.pi / (1 + 1)) + (1 + 1) / (1 + 1) * ((1 + 1) / (1 + 1)) =
    Real.pi ^ 2 / 4 + 1 by ring]
  rw [show ((1 : ℝ) + 1) / (1 + 1) = 1 by norm_num, show (1 + 1 : ℝ) = 2 by norm_num]

/-- The square root `n` of `pi^2/4 + 1` is strictly positive, its square is
`pi^2/4 + 1`, and `pi/2/n` lies strictly between 0 and 1. -/
theorem norm_pi_facts (n : ℝ) (hn : n = Real.sqrt (Real.pi ^ 2 / 4 + 1)) :
    0 < n ∧ n * n = Real.pi ^ 2 / 4 + 1 ∧ 0 < Real.pi / 2 / n ∧ Real.pi / 2 / n < 1 := by
  have hn2 : (0 : ℝ) < Real.pi ^ 2 / 4 + 1 := by positivity
  have hn0 : 0 < n := hn ▸ Real.sqrt_pos.mpr hn2
  have hsq : n * n = Real.pi ^ 2 / 4 + 1 := by
    rw [hn]
    exact Real.mul_self_sqrt hn2.le
  refine ⟨hn0, hsq, div_pos (half_pos Real.pi_pos) hn0, ?_⟩
  rw [div_lt_one hn0]
  nlinarith [Real.pi_pos]

/-- The optical rotation quaternion of the rotation vector (-t,0,0), with
`t = 2 * arccos (-(pi/2/n))` and `n` the square root of `pi^2/4 + 1`, is the
opposite of the attitude left by the first cycle. -/
theorem antipodal_rotation (n t : ℝ) (hn : n = Real.sqrt (Real.pi ^ 2 / 4 + 1))
    (ht : t = 2 * Real.arccos (-(Real.pi / 2 / n))) :
    orpeRotQuat ⟨Real.sqrt, Real.cos, Real.sin⟩ (opticalSample 1000 0 0 (-t) 0 0 true) =
      quat (-(Real.pi / 2 / n)) (-(1 / n)) 0 0 := by
  obtain ⟨hn0, hsq, hx0, hx1⟩ := norm_pi_facts n hn
  have hacos : 0 < Real.arccos (-(Real.pi / 2 / n)) := Real.arccos_pos.mpr (by linarith)
  have ht0 : 0 < t := by
    rw [ht]
    linarith
  have hlen : Real.sqrt (-t * -t + 0 * 0 + 0 * 0) = t := by
    rw [show -t * -t + 0 * 0 + 0 * 0 = t ^ 2 by ring]
    exact Real.sqrt_sq ht0.le
  have hne : Real.sqrt (-t * -t + 0 * 0 + 0 * 0) ≠ 0 := by
    rw [hlen]
    exact ht0.ne.symm
  have hhalf : t / 2 = Real.arccos (-(Real.pi / 2 / n)) := by
    rw [ht]
    ring
  have hcos : Real.cos (t / 2) = -(Real.pi / 2 / n) := by
    rw [hhalf]
    exact Real.cos_arccos (by linarith) (by linarith)
  have hsin : Real.sin (t / 2) = 1 / n := by
    have key : 1 - (-(Real.pi / 2 / n)) ^ 2 = (1 / n) ^ 2 := by
      have hp : Real.pi ^ 2 = 4 * (n * n) - 4 := by linarith
      field_simp
      rw [hp]
      ring
    rw [hhalf, Real.sin_arccos, key]
    exact Real.sqrt_sq (by positivity)
  have hdiv : -t / t = -1 := by
    rw [neg_div, div_self ht0.ne.symm]
  rw [(rotation_quaternions 1000 0 0 (-t) 0 0 true hne).1, hlen, hcos, hsin, hdiv]
  simp only [zero_div, zero_mul, neg_one_mul]

/-- The blended quaternion can be the zero quaternion in a reachable state: with
all covariance constants 1, the state reached from the initial state by one
cycle on the valid optical sample of rotation vector (pi,0,0) has an attitude of
norm exactly 1; the next valid optical sample, of rotation vector (-t,0,0) with
`t = 2 * arccos (-(pi/2/n))` and `n` the square root of `pi^2/4 + 1`, has the
opposite rotation quaternion, so the blended quaternion is the zero quaternion,
its normalization divides by zero, and the attitude stored by that cycle is
undefined and its norm is not 1. -/
theorem attitude_blend_zero (n t : ℝ) (hn : n = Real.sqrt (Real.pi ^ 2 / 4 + 1))
    (ht : t = 2 * Real.arccos (-(Real.pi / 2 / n))) :
    (PoseFilter.afterTwoSamples ⟨Real.sqrt, Real.cos, Real.sin⟩ (Covariances.const (1 : ℝ))
        (opticalSample 1000 0 0 Real.pi 0 0 true)
        (opticalSample 1000 0 0 (-t) 0 0 true)).attitude_.normSq = Fl.num 1 ∧
      orpeAttitudeBlend ⟨Real.sqrt, Real.cos, Real.sin⟩ (Covariances.const (1 : ℝ))
        (opticalSample 1000 0 0 (-t) 0 0 true)
        (bootstrapAttitude ⟨Real.sqrt, Real.cos, Real.sin⟩ true
          (opticalSample 1000 0 0 (-t) 0 0 true)
          (PoseFilter.afterTwoSamples ⟨Real.sqrt, Real.cos, Real.sin⟩
            (Covariances.const (1 : ℝ)) (opticalSample 1000 0 0 Real.pi 0 0 true)
            (opticalSample 1000 0 0 (-t) 0 0 true))).attitude_ = quat 0 0 0 0 ∧
      (processNewData ⟨Real.sqrt, Real.cos, Real.sin⟩ (Covariances.const (1 : ℝ))
        (PoseFilter.afterTwoSamples ⟨Real.sqrt, Real.cos, Real.sin⟩
          (Covariances.const (1 : ℝ)) (opticalSample 1000 0 0 Real.pi 0 0 true)
          (opticalSample 1000 0 0 (-t) 0 0 true))).1.attitude_ =
        ⟨Fl.undef, ⟨Fl.undef, Fl.undef, Fl.undef⟩⟩ ∧
      (processNewData ⟨Real.sqrt, Real.cos, Real.sin⟩ (Covariances.const (1 : ℝ))
        (PoseFilter.afterTwoSamples ⟨Real.sqrt, Real.cos, Real.sin⟩
          (Covariances.const (1 : ℝ)) (opticalSample 1000 0 0 Real.pi 0 0 true)
          (opticalSample 1000 0 0 (-t) 0 0 true))).1.attitude_.normSq ≠ Fl.num 1 := by
  obtain ⟨hn0, hsq, -, -⟩ := norm_pi_facts n hn
  have hfirst := processNewData_orpe_attitude ⟨Real.sqrt, Real.cos, Real.sin⟩
    (Covariances.const (1 : ℝ))
    ((PoseFilter.initial (opticalSample 1000 0 0 Real.pi 0 0 true) (vec 0 0 0)).orpeEstRecv
      (opticalSample 1000 0 0 Real.pi 0 0 true)) rfl
  have hatt : (PoseFilter.afterTwoSamples ⟨Real.sqrt, Real.cos, Real.sin⟩
      (Covariances.const (1 : ℝ)) (opticalSample 1000 0 0 Real.pi 0 0 true)
      (opticalSample 1000 0 0 (-t) 0 0 true)).attitude_ = quat (Real.pi / 2 / n) (1 / n) 0 0 :=
    first_cycle_pi n hn
  have hflag : (PoseFilter.afterTwoSamples ⟨Real.sqrt, Real.cos, Real.sin⟩
      (Covariances.const (1 : ℝ)) (opticalSample 1000 0 0 Real.pi 0 0 true)
      (opticalSample 1000 0 0 (-t) 0 0 true)).firstAttitude_ = false := hfirst.2.1
  have hblend : orpeAttitudeBlend ⟨Real.sqrt, Real.cos, Real.sin⟩ (Covariances.const (1 : ℝ))
      (opticalSample 1000 0 0 (-t) 0 0 true) (quat (Real.pi / 2 / n) (1 / n) 0 0) =
      quat 0 0 0 0 := by
    rw [orpeAttitudeBlend_quat (Covariances.const (1 : ℝ)) _ 1 1 1 _ _ _ _ _ _ _ _
      (antipodal_rotation n t hn ht) rfl one_pos one_pos one_pos]
    simp
  have hdeg : ¬ ∃ w x y z : ℝ, quat (0 : ℝ) 0 0 0 = quat w x y z ∧
      ¬ (w = 0 ∧ x = 0 ∧ y = 0 ∧ z = 0) := by
    rintro ⟨w, x, y, z, hq, hne⟩
    simp only [quat, vec, Quaternion_F.mk.injEq, Vector3D_F.mk.injEq, Fl.num.injEq] at hq
    exact hne ⟨hq.1.symm, hq.2.1.symm, hq.2.2.1.symm, hq.2.2.2.symm⟩
  have hsecond := (processNewData_orpe_attitude ⟨Real.sqrt, Real.cos, Real.sin⟩
    (Covariances.const (1 : ℝ))
    (PoseFilter.afterTwoSamples ⟨Real.sqrt, Real.cos, Real.sin⟩ (Covariances.const (1 : ℝ))
      (opticalSample 1000 0 0 Real.pi 0 0 true) (opticalSample 1000 0 0 (-t) 0 0 true)) rfl).1
  rw [hflag, hatt] at hsecond
  simp only [Bool.false_eq_true, if_false] at hsecond
  rw [show (PoseFilter.afterTwoSamples ⟨Real.sqrt, Real.cos, Real.sin⟩
      (Covariances.const (1 : ℝ)) (opticalSample 1000 0 0 Real.pi 0 0 true)
      (opticalSample 1000 0 0 (-t) 0 0 true)).orpeData_ =
        opticalSample 1000 0 0 (-t) 0 0 true from rfl,
    hblend, normalize_degenerate _ hdeg] at hsecond
  refine ⟨?_, ?_, hsecond, ?_⟩
  · rw [hatt]
    simp only [Quaternion_F.normSq, quat, vec, Fl.num_mul_num, Fl.num_add_num]
    congr 1
    have hp : Real.pi ^ 2 = 4 * (n * n) - 4 := by linarith
    field_simp
    nlinarith
  · rw [bootstrapAttitude_attitude, hflag, hatt]
    simpa using hblend
  · rw [hsecond]
    simp [Quaternion_F.normSq]

/-- Counterexample to C1 as stated: in the initial state, with all covariance
constants 1, the cycle that drains the valid optical sample of position
(0,0,2000) mm and rotation vector (0,0,0) updates the attitude, and the attitude
it stores and publishes is undefined: its squared norm is not 1. -/
theorem attitude_not_unit_zero_rotation :
    (processNewData ⟨Real.sqrt, Real.cos, Real.sin⟩ (Covariances.const (1 : ℝ))
        ((PoseFilter.initial (opticalSample 0 0 0 0 0 0 false) (vec 0 0 0)).orpeEstRecv
          (opticalSample 0 0 2000 0 0 0 true))).1.attitude_.normSq ≠ Fl.num 1 ∧
      (processNewData ⟨Real.sqrt, Real.cos, Real.sin⟩ (Covariances.const (1 : ℝ))
        ((PoseFilter.initial (opticalSample 0 0 0 0 0 0 false) (vec 0 0 0)).orpeEstRecv
          (opticalSample 0 0 2000 0 0 0 true))).1.firstAttitude_ = false ∧
      (processNewData ⟨Real.sqrt, Real.cos, Real.sin⟩ (Covariances.const (1 : ℝ))
        ((PoseFilter.initial (opticalSample 0 0 0 0 0 0 false) (vec 0 0 0)).orpeEstRecv
          (opticalSample 0 0 2000 0 0 0 true))).2.head? =
        some (Publication.attitude ⟨Fl.undef, ⟨Fl.undef, Fl.undef, Fl.undef⟩⟩) := by
  have h := processNewData_orpe_attitude ⟨Real.sqrt, Real.cos, Real.sin⟩
    (Covariances.const (1 : ℝ))
    ((PoseFilter.initial (opticalSample 0 0 0 0 0 0 false) (vec 0 0 0)).orpeEstRecv
      (opticalSample 0 0 2000 0 0 0 true)) rfl
  have ha := zero_rotation_cycle (Covariances.const (1 : ℝ))
    ((PoseFilter.initial (opticalSample 0 0 0 0 0 0 false) (vec 0 0 0)).orpeEstRecv
      (opticalSample 0 0 2000 0 0 0 true)) 0 0 2000 rfl rfl
  refine ⟨?_, h.2.1, ?_⟩
  · rw [ha]
    simp [Quaternion_F.normSq]
  · rw [h.2.2.2, ha]
    rfl

/-- Witness of C1 (as amended): a state with identity attitude and a new valid
optical sample of rotation vector (pi,0,0), all constants 1: the blended
quaternion is (1/2,1/2,0,0) and the stored attitude has norm 1. -/
theorem attitude_unit_norm_iff_witness :
    (processNewData ⟨Real.sqrt, Real.cos, Real.sin⟩ (Covariances.const (1 : ℝ))
      (PoseFilter.running (vec 0 0 0) (opticalSample 1000 0 0 Real.pi 0 0 true)
        (vec 0 0 0))).1.attitude_.normSq = Fl.num 1 := by
  have hpi : Real.sqrt (Real.pi * Real.pi + 0 * 0 + 0 * 0) = Real.pi :=
    sqrt_axis Real.pi Real.pi_pos.le
  have hne : Real.sqrt (Real.pi * Real.pi + 0 * 0 + 0 * 0) ≠ 0 := by
    rw [hpi]
    exact Real.pi_ne_zero
  have hr := (rotation_quaternions 1000 0 0 Real.pi 0 0 true hne).1
  rw [hpi] at hr
  have hb := orpeAttitudeBlend_quat (Covariances.const (1 : ℝ))
    (opticalSample 1000 0 0 Real.pi 0 0 true) 1 1 1 _ _ _ _ 1 0 0 0 hr rfl one_pos one_pos one_pos
  have hb2 : orpeAttitudeBlend ⟨Real.sqrt, Real.cos, Real.sin⟩ (Covariances.const (1 : ℝ))
      (opticalSample 1000 0 0 Real.pi 0 0 true) (quat 1 0 0 0) = quat (1 / 2) (1 / 2) 0 0 := by
    rw [hb]
    simp only [Real.cos_pi_div_two, Real.sin_pi_div_two, div_self Real.pi_ne_zero, mul_one,
      Real.sqrt_one, div_one, zero_div, zero_mul, add_zero, zero_add, mul_zero]
    norm_num
  exact (attitude_unit_norm_iff (Covariances.const (1 : ℝ))
    (PoseFilter.running (vec 0 0 0) (opticalSample 1000 0 0 Real.pi 0 0 true) (vec 0 0 0))
    rfl rfl).1.mpr ⟨1 / 2, 1 / 2, 0, 0, by rw [bootstrapAttitude_attitude]; exact hb2,
      by norm_num⟩

/-! ## Divisors of the cycle -/

/-- C3: a cycle that drains no valid sample (optical flag unset or optical
sample flagged invalid, and ranging flag unset or ranging magnitude above 500 or
below 2) leaves attitude, position and both bootstrap flags unchanged and
publishes nothing. -/
theorem processNewData_no_valid_sample (M : MathLib F) (c : Covariances F) (s : PoseFilter F)
    (ho : s.orpeNewData_ = false ∨ s.orpeData_.valid = false)
    (hu : s.uwbNewData_ = false ∨ (s.uwbData_.getLen M).gt 500 = true ∨
      (s.uwbData_.getLen M).lt 2 = true) :
    (processNewData M c s).1.attitude_ = s.attitude_ ∧
      (processNewData M c s).1.position_ = s.position_ ∧
      (processNewData M c s).1.firstAttitude_ = s.firstAttitude_ ∧
      (processNewData M c s).1.firstPosition_ = s.firstPosition_ ∧
      (processNewData M c s).2 = [] := by
  have h1 : (s.orpeNewData_ && s.orpeData_.valid) = false := by
    rcases ho with h | h <;> simp [h]
  have h2 : uwbBoundsFilter M s.uwbData_ s.uwbNewData_ = false := by
    unfold uwbBoundsFilter
    rcases hu with h | h | h <;> simp [h]
  simp [processNewData, h1, h2, bootstrapAttitude, bootstrapPositionOrpe, bootstrapPositionUwb,
    orpeFusion, uwbFusion, publish]

/-- Witness of C3: the initial state with a stored ranging sample of magnitude 1
that is flagged new and an optical sample that is not new. -/
theorem processNewData_no_valid_sample_witness :
    (processNewData ⟨Real.sqrt, Real.cos, Real.sin⟩ (Covariances.const 1)
        ((PoseFilter.initial (opticalSample 0 0 0 0 0 0 true) (vec 0 0 0)).uwbEstRecv
          (vec 1 0 0))).1.position_ = vec (0 : ℝ) 0 0 ∧
      (processNewData ⟨Real.sqrt, Real.cos, Real.sin⟩ (Covariances.const 1)
        ((PoseFilter.initial (opticalSample 0 0 0 0 0 0 true) (vec 0 0 0)).uwbEstRecv
          (vec 1 0 0))).2 = [] := by
  have h := processNewData_no_valid_sample ⟨Real.sqrt, Real.cos, Real.sin⟩ (Covariances.const 1)
    ((PoseFilter.initial (opticalSample 0 0 0 0 0 0 true) (vec 0 0 0)).uwbEstRecv
      (vec (1 : ℝ) 0 0))
    (Or.inl rfl)
    (Or.inr (Or.inr (by
      simp [PoseFilter.uwbEstRecv, vec, Vector3D_F.getLen, Fl.ofNat_eq_num]
      norm_num)))
  exact ⟨by simpa [PoseFilter.uwbEstRecv, PoseFilter.initial, PoseFilter.init, vec] using h.2.1,
    h.2.2.2.2⟩

/-- C8: the publications of a cycle are determined by the filtered flags.  If
the optical sample is new and valid, the attitude and the position stored at the
end of the cycle are published, in this order; else if the ranging sample is new
and its magnitude is neither above 500 nor below 2, the position stored at the
end of the cycle is published alone; else nothing is published. -/
theorem processNewData_publications (M : MathLib F) (c : Covariances F) (s : PoseFilter F) :
    (processNewData M c s).2 =
      if s.orpeNewData_ = true ∧ s.orpeData_.valid = true then
        [Publication.attitude (processNewData M c s).1.attitude_,
          Publication.position (processNewData M c s).1.position_]
      else if s.uwbNewData_ = true ∧ (s.uwbData_.getLen M).gt 500 = false ∧
          (s.uwbData_.getLen M).lt 2 = false then
        [Publication.position (processNewData M c s).1.position_]
      else [] := by
  have h2 : uwbBoundsFilter M s.uwbData_ s.uwbNewData_ =
      decide (s.uwbNewData_ = true ∧ (s.uwbData_.getLen M).gt 500 = false ∧
        (s.uwbData_.getLen M).lt 2 = false) := by
    unfold uwbBoundsFilter
    cases s.uwbNewData_ <;> cases (s.uwbData_.getLen M).gt 500 <;>
      cases (s.uwbData_.getLen M).lt 2 <;> simp
  simp only [processNewData, publish, h2]
  cases s.orpeNewData_ <;> cases s.orpeData_.valid <;> simp

/-! ## The inbox -/

/-- C14: in the sequential model of the inbox, submitting sample `a` and then
sample `b` on one stream gives the same state as submitting `b` alone, also when
the other stream is submitted in between, hence the same state and publications
after the next cycle; the stored sample is `b`, the stream's flag is set, and
the other stream's stored sample and flag, the pose and the bootstrap flags are
untouched by a submit. -/
theorem submit_last_write_wins (M : MathLib F) (c : Covariances F) (s : PoseFilter F)
    (a b : OrpeTelemetry F) (u v : Vector3D_F F) :
    processNewData M c ((s.orpeEstRecv a).orpeEstRecv b) = processNewData M c (s.orpeEstRecv b) ∧
      processNewData M c ((s.uwbEstRecv u).uwbEstRecv v) = processNewData M c (s.uwbEstRecv v) ∧
      processNewData M c (((s.orpeEstRecv a).uwbEstRecv u).orpeEstRecv b) =
        processNewData M c ((s.uwbEstRecv u).orpeEstRecv b) ∧
      processNewData M c (((s.uwbEstRecv u).orpeEstRecv a).uwbEstRecv v) =
        processNewData M c ((s.orpeEstRecv a).uwbEstRecv v) ∧
      ((s.orpeEstRecv a).orpeEstRecv b).orpeData_ = b ∧
      ((s.orpeEstRecv a).orpeEstRecv b).orpeNewData_ = true ∧
      (s.orpeEstRecv b).uwbData_ = s.uwbData_ ∧
      (s.orpeEstRecv b).uwbNewData_ = s.uwbNewData_ ∧
      ((s.uwbEstRecv u).uwbEstRecv v).uwbData_ = v ∧
      ((s.uwbEstRecv u).uwbEstRecv v).uwbNewData_ = true ∧
      (s.uwbEstRecv v).orpeData_ = s.orpeData_ ∧
      (s.uwbEstRecv v).orpeNewData_ = s.orpeNewData_ ∧
      (s.orpeEstRecv b).attitude_ = s.attitude_ ∧ (s.orpeEstRecv b).position_ = s.position_ ∧
      (s.orpeEstRecv b).firstAttitude_ = s.firstAttitude_ ∧
      (s.orpeEstRecv b).firstPosition_ = s.firstPosition_ ∧
      (s.uwbEstRecv v).attitude_ = s.attitude_ ∧ (s.uwbEstRecv v).position_ = s.position_ ∧
      (s.uwbEstRecv v).firstAttitude_ = s.firstAttitude_ ∧
      (s.uwbEstRecv v).firstPosition_ = s.firstPosition_ := by
  refine ⟨rfl, rfl, rfl, rfl, rfl, rfl, rfl, rfl, rfl, rfl, rfl, rfl, rfl, rfl, rfl, rfl, rfl,
    rfl, rfl, rfl⟩

/-- Two filter states with the same eight members are equal. -/
theorem eq_of_fields (s t : PoseFilter F) (h1 : s.attitude_ = t.attitude_)
    (h2 : s.position_ = t.position_) (h3 : s.firstAttitude_ = t.firstAttitude_)
    (h4 : s.firstPosition_ = t.firstPosition_) (h5 : s.orpeNewData_ = t.orpeNewData_)
    (h6 : s.uwbNewData_ = t.uwbNewData_) (h7 : s.orpeData_ = t.orpeData_)
    (h8 : s.uwbData_ = t.uwbData_) : s = t := by
  cases s
  cases t
  simp_all

/-- Every cycle clears both new-data flags and leaves the stored samples. -/
theorem processNewData_inbox (M : MathLib F) (c : Covariances F) (s : PoseFilter F) :
    (processNewData M c s).1.orpeNewData_ = false ∧
      (processNewData M c s).1.uwbNewData_ = false ∧
      (processNewData M c s).1.orpeData_ = s.orpeData_ ∧
      (processNewData M c s).1.uwbData_ = s.uwbData_ := by
  cases ho : (s.orpeNewData_ && s.orpeData_.valid) <;>
    cases hu : uwbBoundsFilter M s.uwbData_ s.uwbNewData_ <;>
    cases hfa : s.firstAttitude_ <;> cases hfp : s.firstPosition_ <;>
    simp [processNewData, ho, hu, hfa, hfp, bootstrapAttitude, bootstrapPositionOrpe,
      bootstrapPositionUwb, orpeFusion, uwbFusion]

/-- C15: every cycle clears both new-data flags, so a second cycle with no
submit in between leaves attitude, position and both bootstrap flags unchanged
(the whole state is unchanged) and publishes nothing, whatever samples remain
stored in the inbox. -/
theorem second_cycle_idle (M : MathLib F) (c : Covariances F) (s : PoseFilter F) :
    (processNewData M c s).1.orpeNewData_ = false ∧
      (processNewData M c s).1.uwbNewData_ = false ∧
      (processNewData M c (processNewData M c s).1).1.attitude_ =
        (processNewData M c s).1.attitude_ ∧
      (processNewData M c (processNewData M c s).1).1.position_ =
        (processNewData M c s).1.position_ ∧
      (processNewData M c (processNewData M c s).1).1.firstAttitude_ =
        (processNewData M c s).1.firstAttitude_ ∧
      (processNewData M c (processNewData M c s).1).1.firstPosition_ =
        (processNewData M c s).1.firstPosition_ ∧
      (processNewData M c (processNewData M c s).1).1 = (processNewData M c s).1 ∧
      (processNewData M c (processNewData M c s).1).2 = [] := by
  have h := processNewData_inbox M c s
  have h2 := cycle_without_valid_sample M c (processNewData M c s).1 (Or.inl h.1) (Or.inl h.2.1)
  have h3 := processNewData_inbox M c (processNewData M c s).1
  exact ⟨h.1, h.2.1, h2.1, h2.2.1, h2.2.2.1, h2.2.2.2.1,
    eq_of_fields _ _ h2.1 h2.2.1 h2.2.2.1 h2.2.2.2.1 (h3.1.trans h.1.symm)
      (h3.2.1.trans h.2.1.symm) h3.2.2.1 h3.2.2.2, h2.2.2.2.2⟩

/-! ## Frame of a cycle without a valid optical sample -/

/-- C18: in any state, a cycle whose optical sample is not new or is flagged
invalid changes neither the attitude estimate nor `firstAttitude_`, whether or
not the ranging sample is accepted, and publishes no attitude; the stored
samples are kept as well, so only the position, `firstPosition_` and the
new-data flags may change. -/
theorem ranging_cycle_attitude_frame (M : MathLib F) (c : Covariances F) (s : PoseFilter F)
    (ho : s.orpeNewData_ = false ∨ s.orpeData_.valid = false) :
    (processNewData M c s).1.attitude_ = s.attitude_ ∧
      (processNewData M c s).1.firstAttitude_ = s.firstAttitude_ ∧
      (∀ q : Quaternion_F F, Publication.attitude q ∉ (processNewData M c s).2) ∧
      (processNewData M c s).1.orpeData_ = s.orpeData_ ∧
      (processNewData M c s).1.uwbData_ = s.uwbData_ := by
  have h1 : (s.orpeNewData_ && s.orpeData_.valid) = false := by
    rcases ho with h | h <;> simp [h]
  have hin := processNewData_inbox M c s
  refine ⟨?_, ?_, ?_, hin.2.2.1, hin.2.2.2⟩
  · cases hu : uwbBoundsFilter M s.uwbData_ s.uwbNewData_ <;>
      cases hfp : s.firstPosition_ <;>
      simp [processNewData, h1, hu, hfp, bootstrapAttitude, bootstrapPositionOrpe,
        bootstrapPositionUwb, orpeFusion, uwbFusion]
  · cases hu : uwbBoundsFilter M s.uwbData_ s.uwbNewData_ <;>
      cases hfp : s.firstPosition_ <;>
      simp [processNewData, h1, hu, hfp, bootstrapAttitude, bootstrapPositionOrpe,
        bootstrapPositionUwb, orpeFusion, uwbFusion]
  · intro q
    cases hu : uwbBoundsFilter M s.uwbData_ s.uwbNewData_ <;>
      simp [processNewData, h1, hu, publish]

/-- Witness of C18: the state with initialised estimates whose inbox holds an
optical sample flagged invalid and the ranging sample (4,0,0); the attitude
stays the identity quaternion. -/
theorem ranging_cycle_attitude_frame_witness :
    (processNewData ⟨Real.sqrt, Real.cos, Real.sin⟩ (Covariances.const (1 : ℝ))
      (PoseFilter.running (vec 0 0 0) (opticalSample 1000 0 0 1 0 0 false)
        (vec 4 0 0))).1.attitude_ = quat 1 0 0 0 :=
  (ranging_cycle_attitude_frame ⟨Real.sqrt, Real.cos, Real.sin⟩ (Covariances.const (1 : ℝ))
    (PoseFilter.running (vec 0 0 0) (opticalSample 1000 0 0 1 0 0 false) (vec 4 0 0))
    (Or.inr rfl)).1

/-! ## The bootstrap flags over reachable states -/

/-- The bootstrap flags after a cycle: `firstAttitude_` stays set only if it was
set and the optical sample is not accepted; `firstPosition_` stays set only if
it was set and neither sample is accepted. -/
theorem processNewData_flags (M : MathLib F) (c : Covariances F) (s : PoseFilter F) :
    (processNewData M c s).1.firstAttitude_ =
        (s.firstAttitude_ && !(s.orpeNewData_ && s.orpeData_.valid)) ∧
      (processNewData M c s).1.firstPosition_ =
        (s.firstPosition_ && !(s.orpeNewData_ && s.orpeData_.valid) &&
          !(uwbBoundsFilter M s.uwbData_ s.uwbNewData_)) := by
  cases ho : (s.orpeNewData_ && s.orpeData_.valid) <;>
    cases hu : uwbBoundsFilter M s.uwbData_ s.uwbNewData_ <;>
    cases hfa : s.firstAttitude_ <;> cases hfp : s.firstPosition_ <;>
    simp [processNewData, ho, hu, hfa, hfp, bootstrapAttitude, bootstrapPositionOrpe,
      bootstrapPositionUwb, orpeFusion, uwbFusion]

/-- One step keeps an initialised flag initialised and keeps the implication
from attitude initialised to position initialised. -/
theorem step_flags (M : MathLib F) (c : Covariances F) (s t : PoseFilter F)
    (h : Step M c s t) :
    (s.firstAttitude_ = false → t.firstAttitude_ = false) ∧
      (s.firstPosition_ = false → t.firstPosition_ = false) ∧
      ((s.firstAttitude_ = false → s.firstPosition_ = false) →
        t.firstAttitude_ = false → t.firstPosition_ = false) := by
  cases h with
  | submitOrpe o => exact ⟨id, id, id⟩
  | submitUwb u => exact ⟨id, id, id⟩
  | cycle =>
    have hf := processNewData_flags M c s
    rw [hf.1, hf.2]
    cases (s.orpeNewData_ && s.orpeData_.valid) <;>
      cases uwbBoundsFilter M s.uwbData_ s.uwbNewData_ <;>
      cases s.firstAttitude_ <;> cases s.firstPosition_ <;> simp

/-- C16: over the step relation (submit of either stream, or one cycle), a
bootstrap flag that marks an estimate initialised (`firstAttitude_` or
`firstPosition_` false) is never set again in any later state, and in every
state reachable from the initial state the attitude is initialised only if the
position is (`firstAttitude_ = false` implies `firstPosition_ = false`). -/
theorem bootstrap_flags_invariant (M : MathLib F) (c : Covariances F) :
    (∀ s t : PoseFilter F, Relation.ReflTransGen (Step M c) s t →
        (s.firstAttitude_ = false → t.firstAttitude_ = false) ∧
          (s.firstPosition_ = false → t.firstPosition_ = false)) ∧
      (∀ s : PoseFilter F, Reachable M c s →
        s.firstAttitude_ = false → s.firstPosition_ = false) := by
  constructor
  · intro s t h
    induction h with
    | refl => exact ⟨id, id⟩
    | tail _ hstep ih =>
      have hs := step_flags M c _ _ hstep
      exact ⟨fun h0 => hs.1 (ih.1 h0), fun h0 => hs.2.1 (ih.2 h0)⟩
  · rintro s ⟨o0, u0, h⟩
    induction h with
    | refl =>
      intro h0
      simp [PoseFilter.initial, PoseFilter.init] at h0
    | tail _ hstep ih => exact (step_flags M c _ _ hstep).2.2 ih

/-- Witness of C16: the state after the first cycle on a valid optical sample is
reachable and has its attitude initialised, so its position is initialised. -/
theorem bootstrap_flags_invariant_witness :
    (processNewData ⟨Real.sqrt, Real.cos, Real.sin⟩ (Covariances.const (1 : ℝ))
      ((PoseFilter.initial (opticalSample 0 0 0 0 0 0 false) (vec 0 0 0)).orpeEstRecv
        (opticalSample 1000 0 0 1 0 0 true))).1.firstPosition_ = false :=
  (bootstrap_flags_invariant ⟨Real.sqrt, Real.cos, Real.sin⟩ (Covariances.const (1 : ℝ))).2 _
    ⟨opticalSample 0 0 0 0 0 0 false, vec 0 0 0,
      (Relation.ReflTransGen.single (Step.submitOrpe _ _)).tail (Step.cycle _)⟩
    (processNewData_orpe_attitude ⟨Real.sqrt, Real.cos, Real.sin⟩ (Covariances.const (1 : ℝ))
      ((PoseFilter.initial (opticalSample 0 0 0 0 0 0 false) (vec 0 0 0)).orpeEstRecv
        (opticalSample 1000 0 0 1 0 0 true)) rfl).2.1

/-! ## Bootstrap of the position from the optical sample -/

/-- C11 (as amended): when the position is not yet initialised and a cycle drains
a new valid optical sample with position (px, py, pz) in millimetres and no
accepted ranging sample, the position is seeded with the sample converted to
metres, (px/1000, py/1000, pz/1000), and marked initialised, and the position
after the cycle is the result of the optical fusion step of the same cycle on
that seed, the seed blended with itself under the optical and process
covariances, which is not the seed in general (it is undefined for the sample
(0,0,0)). -/
theorem optical_seed_self_blend (M : MathLib F) (c : Covariances F) (s : PoseFilter F)
    (hfp : s.firstPosition_ = true) (ho : s.orpeNewData_ = true)
    (hv : s.orpeData_.valid = true)
    (hu : s.uwbNewData_ = false ∨ (s.uwbData_.getLen M).gt 500 = true ∨
      (s.uwbData_.getLen M).lt 2 = true) :
    (bootstrapPositionOrpe true s.orpeData_ s).position_ =
        ⟨s.orpeData_.px / 1000, s.orpeData_.py / 1000, s.orpeData_.pz / 1000⟩ ∧
      (processNewData M c s).1.position_ =
        orpePositionBlend M c s.orpeData_
          ⟨s.orpeData_.px / 1000, s.orpeData_.py / 1000, s.orpeData_.pz / 1000⟩ ∧
      (processNewData M c s).1.firstPosition_ = false := by
  have hov : (s.orpeNewData_ && s.orpeData_.valid) = true := by rw [ho, hv]; rfl
  have hf : uwbBoundsFilter M s.uwbData_ s.uwbNewData_ = false := by
    unfold uwbBoundsFilter
    rcases hu with h | h | h <;> simp [h]
  refine ⟨?_, ?_, (processNewData_orpe_attitude M c s hov).2.2.1⟩
  · simp [bootstrapPositionOrpe, hfp]
  · rw [processNewData_orpe_only_position M c s hov hf, hfp, if_pos rfl]

/-- Witness of C11 (as amended): the initial state with the optical position
(3000,4000,0) mm and no new ranging sample, all constants 1. -/
theorem optical_seed_self_blend_witness :
    (processNewData ⟨Real.sqrt, Real.cos, Real.sin⟩ (Covariances.const (1 : ℝ))
        ((PoseFilter.initial (opticalSample 0 0 0 0 0 0 false) (vec 0 0 0)).orpeEstRecv
          (opticalSample 3000 4000 0 1 0 0 true))).1.position_ =
      orpePositionBlend ⟨Real.sqrt, Real.cos, Real.sin⟩ (Covariances.const (1 : ℝ))
        (opticalSample 3000 4000 0 1 0 0 true)
        ⟨Fl.num 3000 / 1000, Fl.num 4000 / 1000, Fl.num 0 / 1000⟩ :=
  (optical_seed_self_blend ⟨Real.sqrt, Real.cos, Real.sin⟩ (Covariances.const (1 : ℝ))
    ((PoseFilter.initial (opticalSample 0 0 0 0 0 0 false) (vec 0 0 0)).orpeEstRecv
      (opticalSample 3000 4000 0 1 0 0 true)) rfl rfl rfl (Or.inl rfl)).2.1

/-- Counterexample to C11 as stated: in the initial state, with all constants 1
and a stored ranging sample that is not new, the cycle that drains the valid
optical sample of position (0,0,0) mm and rotation vector (0,0,1) leaves the
position undefined in every component: it is not (0/1000, 0/1000, 0/1000). -/
theorem optical_bootstrap_zero_position :
    (processNewData ⟨Real.sqrt, Real.cos, Real.sin⟩ (Covariances.const (1 : ℝ))
        ((PoseFilter.initial (opticalSample 0 0 0 0 0 0 false) (vec 1 0 0)).orpeEstRecv
          (opticalSample 0 0 0 0 0 1 true))).1.position_ = ⟨Fl.undef, Fl.undef, Fl.undef⟩ ∧
      (processNewData ⟨Real.sqrt, Real.cos, Real.sin⟩ (Covariances.const (1 : ℝ))
        ((PoseFilter.initial (opticalSample 0 0 0 0 0 0 false) (vec 1 0 0)).orpeEstRecv
          (opticalSample 0 0 0 0 0 1 true))).1.position_ ≠
        vec (0 / 1000) (0 / 1000) (0 / 1000) := by
  have hcov := orpeCov_opticalSample (Covariances.const (1 : ℝ)) 0 0 0 0 0 1 1 1 1 true rfl
    zero_le_one zero_le_one
  norm_num at hcov
  have hf : uwbBoundsFilter ⟨Real.sqrt, Real.cos, Real.sin⟩
      ((PoseFilter.initial (opticalSample 0 0 0 0 0 0 false) (vec (1 : ℝ) 0 0)).orpeEstRecv
        (opticalSample 0 0 0 0 0 1 true)).uwbData_
      ((PoseFilter.initial (opticalSample 0 0 0 0 0 0 false) (vec (1 : ℝ) 0 0)).orpeEstRecv
        (opticalSample 0 0 0 0 0 1 true)).uwbNewData_ = false := by
    simp [uwbBoundsFilter, PoseFilter.orpeEstRecv, PoseFilter.initial, PoseFilter.init]
  have hp : (processNewData ⟨Real.sqrt, Real.cos, Real.sin⟩ (Covariances.const (1 : ℝ))
      ((PoseFilter.initial (opticalSample 0 0 0 0 0 0 false) (vec 1 0 0)).orpeEstRecv
        (opticalSample 0 0 0 0 0 1 true))).1.position_ = ⟨Fl.undef, Fl.undef, Fl.undef⟩ := by
    rw [processNewData_orpe_only_position _ (Covariances.const (1 : ℝ))
      ((PoseFilter.initial (opticalSample 0 0 0 0 0 0 false) (vec 1 0 0)).orpeEstRecv
        (opticalSample 0 0 0 0 0 1 true)) rfl hf]
    simp only [PoseFilter.orpeEstRecv, orpePositionBlend, hcov.1, hcov.2,
      weightedAverage_zero_cov]
  refine ⟨hp, ?_⟩
  rw [hp]
  simp [vec]

/-! ## The scalar attitude covariances -/

/-- C13 at a failing input: for the process attitude covariance triple (4,4,4),
whose geometric mean is 4 (the cube root of the product 64), the code's
`attitudeNoiseCov_` is the square root of the product, 8; for the fixed optical
attitude triple (1,1,1), `orpeAttCov` is 1. -/
theorem attitude_covariance_square_root :
    attitudeNoiseCov ⟨Real.sqrt, Real.cos, Real.sin⟩
        (⟨vec 1 1 1, vec 1 1 1, vec 1 1 1, vec 4 4 4⟩ : Covariances ℝ) = Fl.num 8 ∧
      ((4 : ℝ) ^ 3 = 4 * 4 * 4 ∧ (8 : ℝ) ≠ 4) ∧
      orpeAttCov ⟨Real.sqrt, Real.cos, Real.sin⟩ = Fl.num (1 : ℝ) := by
  have h64 : Real.sqrt ((4 : ℝ) * 4 * 4) = 8 := by
    rw [show (4 : ℝ) * 4 * 4 = 8 ^ 2 by norm_num]
    exact Real.sqrt_sq (by norm_num)
  refine ⟨?_, ⟨by norm_num, by norm_num⟩, by simp [orpeAttCov, Fl.ofNat_eq_num]⟩
  have hnn : ¬ ((4 : ℝ) * 4 * 4 < 0) := by norm_num
  simp only [attitudeNoiseCov, vec, Fl.num_mul_num, Fl.sqrt_num, if_neg hnn, h64]

/-! ## The quaternion built at the attitude bootstrap -/

/-- C12 at a failing input: in the initial state, with all covariance constants
1, for the first valid optical sample of rotation vector (pi,0,0), the
quaternion that line 73 builds with `Quaternion_F(rotAngle, rotAxis)` is
(pi,1,0,0), scalar part the angle and vector part the axis, while the rotation
quaternion that line 133 builds through `AngleAxis_F` is (0,1,0,0); the fusion
step of the same cycle blends the two, and the attitude stored after the cycle
is (pi/2,1,0,0) divided by the square root of `pi^2/4 + 1`, not the rotation
quaternion (0,1,0,0) of angle pi about the first axis. -/
theorem bootstrap_quaternion_mismatch :
    (bootstrapAttitude ⟨Real.sqrt, Real.cos, Real.sin⟩ true
        (opticalSample 1000 0 0 Real.pi 0 0 true)
        (PoseFilter.initial (opticalSample 1000 0 0 Real.pi 0 0 true) (vec 0 0 0))).attitude_ =
        quat Real.pi 1 0 0 ∧
      orpeRotQuat ⟨Real.sqrt, Real.cos, Real.sin⟩ (opticalSample 1000 0 0 Real.pi 0 0 true) =
        quat (Real.cos (Real.pi / 2)) (Real.sin (Real.pi / 2) * 1) 0 0 ∧
      orpeRotQuat ⟨Real.sqrt, Real.cos, Real.sin⟩ (opticalSample 1000 0 0 Real.pi 0 0 true) =
        quat 0 1 0 0 ∧
      (processNewData ⟨Real.sqrt, Real.cos, Real.sin⟩ (Covariances.const (1 : ℝ))
        ((PoseFilter.initial (opticalSample 1000 0 0 Real.pi 0 0 true) (vec 0 0 0)).orpeEstRecv
          (opticalSample 1000 0 0 Real.pi 0 0 true))).1.attitude_ =
        quat (Real.pi / 2 / Real.sqrt (Real.pi ^ 2 / 4 + 1))
          (1 / Real.sqrt (Real.pi ^ 2 / 4 + 1)) 0 0 ∧
      (processNewData ⟨Real.sqrt, Real.cos, Real.sin⟩ (Covariances.const (1 : ℝ))
        ((PoseFilter.initial (opticalSample 1000 0 0 Real.pi 0 0 true) (vec 0 0 0)).orpeEstRecv
          (opticalSample 1000 0 0 Real.pi 0 0 true))).1.attitude_ ≠ quat 0 1 0 0 := by
  have hpi : Real.sqrt (Real.pi * Real.pi + 0 * 0 + 0 * 0) = Real.pi :=
    sqrt_axis Real.pi Real.pi_pos.le
  have hne : Real.sqrt (Real.pi * Real.pi + 0 * 0 + 0 * 0) ≠ 0 := by
    rw [hpi]
    exact Real.pi_ne_zero
  have hr := rotation_quaternions 1000 0 0 Real.pi 0 0 true hne
  rw [hpi] at hr
  have hrot : orpeRotQuat ⟨Real.sqrt, Real.cos, Real.sin⟩
      (opticalSample 1000 0 0 Real.pi 0 0 true) = quat 0 1 0 0 := by
    rw [hr.1]
    simp [Real.pi_ne_zero]
  have hatt := first_cycle_pi _ rfl
  obtain ⟨hn0, -, hx0, -⟩ := norm_pi_facts _ rfl
  refine ⟨?_, ?_, hrot, hatt, ?_⟩
  · rw [bootstrapAttitude_attitude]
    simp only [PoseFilter.initial, PoseFilter.init, if_true]
    rw [hr.2]
    simp [Real.pi_ne_zero]
  · rw [hrot]
    simp
  · rw [hatt]
    intro h
    simp only [quat, vec, Quaternion_F.mk.injEq, Vector3D_F.mk.injEq, Fl.num.injEq] at h
    exact hx0.ne.symm h.1

end RODOS
